import Mathlib

/-!
Verification of the `a2dd` Ansible-to-DirectorD translator (`src/a2dd/a2dd.py`,
`src/a2dd/utils.py`) against its natural-language specification.

The Python data model is shallowly embedded: YAML/ruamel values become the
inductive `Value`, ordered Python dictionaries become association lists
(`Dict`), Python exceptions become the `PyErr` error type of an `Except`
computation, and in-place node mutation becomes explicit state passing.
Recursive structure flattening (blocks/includes) is modelled with an explicit
fuel parameter standing for Python's recursion limit.
-/

namespace A2dd

/-- A Python/YAML value as it appears in the loaded task tree: `None`, booleans,
integers, strings, lists, and ordered string-keyed mappings. -/
inductive Value where
  | vnone : Value
  | vbool : Bool → Value
  | vint : Int → Value
  | vstr : String → Value
  | vlist : List Value → Value
  | vdict : List (String × Value) → Value
deriving Repr

mutual
/-- Structural boolean equality on `Value`. -/
def beqValue : Value → Value → Bool
  | .vnone, .vnone => true
  | .vbool a, .vbool b => a == b
  | .vint a, .vint b => a == b
  | .vstr a, .vstr b => a == b
  | .vlist a, .vlist b => beqValueList a b
  | .vdict a, .vdict b => beqValueDict a b
  | _, _ => false

/-- Structural boolean equality on lists of `Value`. -/
def beqValueList : List Value → List Value → Bool
  | [], [] => true
  | a :: as, b :: bs => beqValue a b && beqValueList as bs
  | _, _ => false

/-- Structural boolean equality on dictionary entry lists. -/
def beqValueDict : List (String × Value) → List (String × Value) → Bool
  | [], [] => true
  | (k, v) :: as, (k2, v2) :: bs => k == k2 && beqValue v v2 && beqValueDict as bs
  | _, _ => false
end

mutual
/-- Soundness and completeness of `beqValue`, packaged as a definition so the
decidability instance below can be built before the remaining definitions. -/
def beqValueIff : (a b : Value) → (beqValue a b = true ↔ a = b)
  | .vnone, b => by cases b <;> simp [beqValue]
  | .vbool x, b => by cases b <;> simp [beqValue]
  | .vint x, b => by cases b <;> simp [beqValue]
  | .vstr x, b => by cases b <;> simp [beqValue]
  | .vlist xs, b => by
      cases b <;> simp [beqValue]
      exact beqValueListIff xs _
  | .vdict xs, b => by
      cases b <;> simp [beqValue]
      exact beqValueDictIff xs _

/-- Companion of `beqValueIff` for lists. -/
def beqValueListIff : (as bs : List Value) → (beqValueList as bs = true ↔ as = bs)
  | [], bs => by cases bs <;> simp [beqValueList]
  | a :: as, [] => by simp [beqValueList]
  | a :: as, b :: bs => by
      simp [beqValueList, Bool.and_eq_true, beqValueIff a b, beqValueListIff as bs]

/-- Companion of `beqValueIff` for dictionary entry lists. -/
def beqValueDictIff : (as bs : List (String × Value)) →
    (beqValueDict as bs = true ↔ as = bs)
  | [], bs => by cases bs <;> simp [beqValueDict]
  | a :: as, [] => by simp [beqValueDict]
  | (k, v) :: as, (k2, v2) :: bs => by
      simp [beqValueDict, Bool.and_eq_true, beqValueIff v v2, beqValueDictIff as bs,
        Prod.ext_iff, and_assoc]
end

instance : DecidableEq Value := fun a b =>
  decidable_of_iff (beqValue a b = true) (beqValueIff a b)

instance : BEq Value := ⟨beqValue⟩

/-- An ordered Python dictionary with string keys (ruamel `CommentedMap`). -/
abbrev Dict := List (String × Value)

/-- The Python exceptions the translator can raise. -/
inductive PyErr where
  | keyError : String → PyErr
  | typeError : PyErr
  | attributeError : PyErr
  | indexError : PyErr
  | nameError : PyErr
  | valueError : String → PyErr
  | notImplementedError : String → PyErr
  | exceptionErr : String → PyErr
  | fileNotFoundError : String → PyErr
  | recursionError : PyErr
deriving Repr, DecidableEq

/-- Dictionary lookup (`d[k]` / `d.get(k)`): value of the first entry with key `k`. -/
def dGet (d : Dict) (k : String) : Option Value :=
  (d.find? (fun kv => kv.1 == k)).map (fun kv => kv.2)

/-- Key-membership test (`k in d`). -/
def dHas (d : Dict) (k : String) : Bool :=
  d.any (fun kv => kv.1 == k)

/-- `d.pop(k)`: remove the first entry with key `k`. -/
def dPop (d : Dict) (k : String) : Dict :=
  d.eraseP (fun kv => kv.1 == k)

/-- `d[k] = v`: replace the value in place if the key exists, else append. -/
def dSet (d : Dict) (k : String) (v : Value) : Dict :=
  if dHas d k then d.map (fun kv => if kv.1 == k then (k, v) else kv)
  else d ++ [(k, v)]

/-- Python truthiness of a value. -/
def truthy : Value → Bool
  | .vnone => false
  | .vbool b => b
  | .vint n => n != 0
  | .vstr s => !s.isEmpty
  | .vlist xs => !xs.isEmpty
  | .vdict xs => !xs.isEmpty

mutual
/-- Python `repr` of a value (string quoting simplified: no escaping). -/
def pyRepr : Value → String
  | .vnone => "None"
  | .vbool b => if b then "True" else "False"
  | .vint n => toString n
  | .vstr s => "\x27" ++ s ++ "\x27"
  | .vlist xs => "[" ++ String.intercalate ", " (pyReprList xs) ++ "]"
  | .vdict xs => "\x7b" ++ String.intercalate ", " (pyReprDict xs) ++ "\x7d"

/-- Helper of `pyRepr` for list elements. -/
def pyReprList : List Value → List String
  | [] => []
  | v :: vs => pyRepr v :: pyReprList vs

/-- Helper of `pyRepr` for dictionary entries. -/
def pyReprDict : List (String × Value) → List String
  | [] => []
  | (k, v) :: vs => ("\x27" ++ k ++ "\x27: " ++ pyRepr v) :: pyReprDict vs
end

/-- Python `str()` of a value, as used by f-string interpolation. -/
def pyStr : Value → String
  | .vstr s => s
  | v => pyRepr v

/-- Substring containment on character lists (structural, so that concrete
instances evaluate in the kernel). -/
def containsSub (needle : List Char) : List Char → Bool
  | [] => needle.isEmpty
  | c :: t => needle.isPrefixOf (c :: t) || containsSub needle t

/-- Substring test, Python `needle in haystack` on strings. -/
def substr (needle haystack : String) : Bool :=
  needle.isEmpty || containsSub needle.data haystack.data

/-- Python `needle in v` for a string needle: key test on dicts, substring test
on strings, element test on lists; `TypeError` otherwise. -/
def pyIn (needle : String) : Value → Except PyErr Bool
  | .vdict d => pure (dHas d needle)
  | .vstr s => pure (substr needle s)
  | .vlist xs => pure (xs.contains (Value.vstr needle))
  | _ => .error .typeError

/-- Python `v[k]` for a string key: dict indexing with `KeyError` on a missing
key; `TypeError` on strings, lists and scalars. -/
def pyGetItem : Value → String → Except PyErr Value
  | .vdict d, k =>
      match dGet d k with
      | some v => pure v
      | none => .error (.keyError k)
  | _, _ => .error .typeError

/-- Coerce to a dictionary, `AttributeError` otherwise (models calling `.items()`). -/
def asDict : Value → Except PyErr Dict
  | .vdict d => pure d
  | _ => .error .attributeError

/-- Coerce to a string, `TypeError` otherwise (models `str.join` elements and
string concatenation). -/
def asStrJ : Value → Except PyErr String
  | .vstr s => pure s
  | _ => .error .typeError

/-- `task_module.split(".")[-1]`: the segment after the last dot. -/
def lastDotSeg (s : String) : String :=
  String.mk (((s.data.reverse).takeWhile (fun c => c ≠ '.')).reverse)

/-- Whitespace-separated chunks of a character list (empty chunks appear at
runs of whitespace and are filtered by the callers). -/
def wsChunks : List Char → List (List Char)
  | [] => []
  | c :: t =>
      match wsChunks t, c.isWhitespace with
      | r, true => [] :: r
      | [], false => [[c]]
      | h :: rest, false => (c :: h) :: rest

/-- First whitespace-delimited token of a string (`s.split()[0]`), if any. -/
def firstWsToken (s : String) : Option String :=
  match (wsChunks s.data).filter (fun t => !t.isEmpty) with
  | [] => none
  | t :: _ => some (String.mk t)

/-- Split a character list on a separator character (structural version of
`String.splitOn` for a one-character separator). -/
def splitCharList (sep : Char) : List Char → List (List Char)
  | [] => [[]]
  | c :: t =>
      match splitCharList sep t with
      | [] => [[]]
      | h :: r => if c = sep then [] :: h :: r else (c :: h) :: r

/-- Structural `str.replace` for a nonempty needle (the translator only
substitutes `%s`); the fuel is the haystack length. -/
def replaceSubAux (needle repl : List Char) : Nat → List Char → List Char
  | 0, hay => hay
  | _ + 1, [] => []
  | fuel + 1, c :: t =>
      if needle.isPrefixOf (c :: t) then
        repl ++ replaceSubAux needle repl fuel ((c :: t).drop needle.length)
      else c :: replaceSubAux needle repl fuel t

/-- Python `s.replace(needle, repl)` (needle nonempty wherever used). -/
def pyReplace (s needle repl : String) : String :=
  if needle.isEmpty then s
  else String.mk (replaceSubAux needle.data repl.data s.data.length s.data)

/-- Modelled from the spec: `string2dict` is imported from `a2dd.utils` but that
helper is absent from the provided sources. Per §4.1 step 4 it parses an inline
`key=value` parameter string with shell-like tokenization (quoted values retain
embedded spaces) into an attribute mapping. Tokenization is simplified to
double-quote-aware whitespace splitting. -/
def string2dict (s : String) : Value :=
  let tokens := (s.data.foldl
    (fun (st : List (List Char) × List Char × Bool) c =>
      let (done, cur, inQ) := st
      if c = '"' then (done, cur, !inQ)
      else if c.isWhitespace ∧ ¬ inQ then
        if cur.isEmpty then (done, [], false) else (done ++ [cur], [], false)
      else (done, cur ++ [c], inQ))
    (([], [], false)))
  let toks := (if tokens.2.1.isEmpty then tokens.1 else tokens.1 ++ [tokens.2.1]).map String.mk
  Value.vdict (toks.filterMap (fun tok =>
    match (splitCharList '=' tok.data).map String.mk with
    | [] => none
    | [_] => none
    | k :: rest => some (k, Value.vstr (String.intercalate "=" rest))))

/-- Scalar rendering used by the modelled serializer. -/
def yamlScalar : Value → String
  | .vstr s => s
  | v => pyStr v

/-- Rendering of the entries of a mapping, one `key: value` line each. -/
def yamlDumpEntries : List (String × Value) → String
  | [] => ""
  | kv :: rest => kv.1 ++ ": " ++ yamlScalar kv.2 ++ "\n" ++ yamlDumpEntries rest

/-- Modelled from the spec: the document serializer (`utils.yaml_dump`, which
delegates to the external ruamel library, an out-of-scope collaborator per §6).
Renders a mapping as `key: value` lines in insertion order; flat rendering. -/
def yaml_dump : Value → String
  | .vdict [] => "\x7b\x7d\n"
  | .vdict (kv :: xs) => yamlDumpEntries (kv :: xs)
  | v => yamlScalar v ++ "\n"

/-- Octal rendering of a natural number (Python `format(n, "o")`). -/
def natToOct (n : Nat) : String := String.mk (Nat.toDigits 8 n)

/-- Octal rendering of an integer. -/
def intToOct (n : Int) : String :=
  if n < 0 then "-" ++ natToOct n.natAbs else natToOct n.toNat

/-- Python `int(s, 8)`: parse an octal literal, `ValueError` on bad digits. -/
def octOfString (s : String) : Except PyErr Int :=
  let (neg, ds) :=
    match s.data with
    | '-' :: rest => (true, rest)
    | l => (false, l)
  if ds.isEmpty ∨ ds.any (fun c => ¬('0' ≤ c ∧ c ≤ '7')) then
    .error (.valueError ("invalid literal for int with base 8: " ++ pyRepr (.vstr s)))
  else
    let n : Nat := ds.foldl (fun acc c => acc * 8 + (c.toNat - '0'.toNat)) 0
    pure (if neg then -(n : Int) else (n : Int))

/-- Render a `mode` value in octal for `--chmod 0NNN` / `chmod -R 0NNN`
(Python f-string `{mode:o}`; bools format as integers). -/
def fmtOct : Value → Except PyErr String
  | .vint n => pure (intToOct n)
  | .vbool b => pure (if b then "1" else "0")
  | _ => .error .typeError

/-- Python `s.rstrip(":")`. -/
def rstripColon (s : String) : String :=
  String.mk ((s.data.reverse.dropWhile (fun c => c = ':')).reverse)

/-- Python `s.lstrip()`. -/
def lstripWs (s : String) : String := String.mk (s.data.dropWhile Char.isWhitespace)

/-! ## Action resolution (`utils.get_task_action`, `a2dd.py` lines 50-60)

The fixed control-attribute allow-lists (`TASK_ATTRS`, `BLOCK_ATTRS`,
`PLAYBOOK_ATTRS`) live in `a2dd/constants.py`, which is not among the provided
sources; every definition below therefore takes the relevant allow-list as an
explicit parameter, and theorems quantify over it. Concrete representative
lists, modelled from the spec, appear further down for witnesses. -/

/-- The candidate action set of the direct-key syntax: the node's keys minus
the control-attribute allow-list minus the `with_`-prefixed loop keys, as a
set (deduplicated). -/
def directActionSet (taskAttrs : List String) (task : Dict) : List String :=
  (((task.map Prod.fst).filter
    (fun k => ¬ k ∈ taskAttrs ∧ ¬ ("with_".data.isPrefixOf k.data)))).dedup

/-- `utils.get_task_action`: determine the action of a task node. Under
`action`/`local_action` syntax the module name comes from the value (a mapping
with a `module` key, or the first token of a string); otherwise the action is
the unique key left after removing control attributes and `with_`-prefixed
loop keys. Returns the raw value (Python returns whatever it finds). -/
def get_task_action (taskAttrs : List String) (task : Dict) : Except PyErr Value :=
  if dHas task "action" ∨ dHas task "local_action" then do
    let actionK := if dHas task "action" then "action" else "local_action"
    let av := (dGet task actionK).getD .vnone
    let hasModule ← pyIn "module" av
    if hasModule then pyGetItem av "module"
    else
      match av with
      | .vstr s =>
          match firstWsToken s with
          | some t => pure (.vstr t)
          | none => .error .indexError
      | _ => .error .attributeError
  else
    match directActionSet taskAttrs task with
    | [] => .error (.exceptionErr ("Can\x27t get action from task: " ++ pyRepr (.vdict task)))
    | [a] => pure (.vstr a)
    | _ => .error (.exceptionErr ("Task has more than one action: " ++ pyRepr (.vdict task)))

/-- The raw-command/raw-include actions exempt from `string2dict` normalization. -/
def string2dictExempt : List String := ["command", "shell", "include_vars"]

/-- Lines 50-60 of `AnsibleTask.parse`: resolve the action name, reduce a
namespace-qualified key to its final segment (rewriting the node: the long key
is popped, the short key appended), and replace a string action value by the
mapping `string2dict` yields unless the action is exempt. Returns the action
name and the (mutated) node. -/
def resolveAndNormalize (taskAttrs : List String) (task : Dict) :
    Except PyErr (String × Dict) := do
  let tm ← get_task_action taskAttrs task
  let task_module ← match tm with
    | .vstr s => pure s
    | _ => .error .typeError
  let (task_module, task) ←
    if task_module.data.contains '.' then
      let new_task_module := lastDotSeg task_module
      match dGet task task_module with
      | none => .error (.keyError task_module)
      | some v => pure (new_task_module, dSet (dPop task task_module) new_task_module v)
    else pure (task_module, task)
  let tv ← match dGet task task_module with
    | some v => pure v
    | none => .error (.keyError task_module)
  let task :=
    match tv with
    | .vstr s =>
        if task_module ∈ string2dictExempt then task
        else dSet task task_module (string2dict s)
    | _ => task
  pure (task_module, task)

/-! ## The task translator (`AnsibleTask`) -/

/-- `AnsibleTask`: one task node plus the surrounding scope dictionaries
(`block`, `include`, `role`, `play` constructor keywords). -/
structure AnsibleTask where
  task : Dict
  blockC : Option Dict
  includeC : Option Dict
  roleC : Option Dict
  playC : Option Dict
deriving Repr, DecidableEq

/-- A directive map as built by the `task_*` handlers: ordered string-keyed
entries (`RUN`, `COPY`, ... plus `NAME` added by `parse`). -/
abbrev DirMap := List (String × Value)

/-- The result of a `task_*` handler: the directive maps and the residual
(unparsed) attributes destined for the audit comment. -/
abbrev HandlerOut := List DirMap × Dict

/-- An emitted directive: the ruamel `Map` of `parse` together with the start
comment attached via `yaml_set_start_comment`. -/
structure Directive where
  entries : DirMap
  comment : Option String
deriving Repr, DecidableEq

/-- One `export K="V";` line of the shell payload. -/
def exportLine (kv : String × Value) : String :=
  "export " ++ kv.1 ++ "=\x22" ++ pyStr kv.2 ++ "\x22;"

/-- `AnsibleTask.task_shell` (also serving `command`): build a single RUN
payload of optional `cd`, scope-ordered `export` lines and the raw command. -/
def AnsibleTask.task_shell (self : AnsibleTask) (task_args : Dict) :
    Except PyErr HandlerOut := do
  let actionK := if dHas self.task "shell" then "shell" else "command"
  let run0 ← match dGet self.task actionK with
    | some v => pure v
    | none => .error (.keyError actionK)
  let run ← match run0 with
    | .vdict _ => do
        let r1 ←
          if dHas self.task "args" then do
            let av := (dGet self.task "args").getD .vnone
            let hasCmd ← pyIn "cmd" av
            if hasCmd then pyGetItem (.vdict self.task) "args" >>= (pyGetItem · "cmd")
            else pure run0
          else pure run0
        let hasCmd2 ← pyIn "cmd" r1
        if hasCmd2 then pyGetItem r1 "cmd" else pure r1
    | v => pure v
  let runS ← match run with
    | .vstr s => pure s
    | _ => .error (.valueError ("Can not get shell command from: " ++ pyRepr (.vdict self.task)))
  let argsDefault := (dGet self.task "args").getD (.vdict [])
  let hasChdirArgs ← pyIn "chdir" argsDefault
  let exe ←
    if hasChdirArgs then do
      let a ← pyGetItem (.vdict self.task) "args"
      let cdv ← pyGetItem a "chdir"
      pure ["cd " ++ pyStr cdv ++ ";"]
    else do
      let hasChdirAct ← pyIn "chdir" run0
      if hasChdirAct then do
        let cdv ← pyGetItem run0 "chdir"
        pure ["cd " ++ pyStr cdv ++ ";"]
      else pure []
  let scopes : List Dict :=
    (match self.playC with | some p => [p] | none => []) ++
    (match self.blockC with | some b => [b] | none => []) ++ [self.task]
  let exe ← scopes.foldlM (fun acc sc =>
    if dHas sc "environment" then do
      let ed ← asDict ((dGet sc "environment").getD .vnone)
      pure (acc ++ ed.map exportLine)
    else pure acc) exe
  let exe := exe ++ [runS]
  let task_args := dPop (dPop (dPop (dPop task_args "environment") "chdir") "name") "args"
  pure ([[("RUN", Value.vstr (String.intercalate "\n" exe))]], task_args)

/-- `AnsibleTask.task_command`: delegates to `task_shell`. -/
def AnsibleTask.task_command (self : AnsibleTask) (task_args : Dict) :
    Except PyErr HandlerOut :=
  self.task_shell task_args

/-- `AnsibleTask.task_set_fact`: one ARG directive per non-`cacheable` entry. -/
def AnsibleTask.task_set_fact (self : AnsibleTask) (task_args : Dict) :
    Except PyErr HandlerOut := do
  let sf ← pyGetItem (.vdict self.task) "set_fact"
  let d ← asDict sf
  pure ((d.filter (fun kv => kv.1 ≠ "cacheable")).map
    (fun kv => [("ARG", Value.vstr (kv.1 ++ " \x22" ++ pyStr kv.2 ++ "\x22"))]), task_args)

/-- The `states_map` of `task_dnf`. -/
def dnfStatesMap (s : String) : String :=
  if s = "installed" then "present"
  else if s = "present" then "present"
  else if s = "absent" then "absent"
  else if s = "removed" then "absent"
  else if s = "latest" then "latest"
  else s

/-- The `for act in ("yum", "dnf", "package")` alias scan of `task_dnf`. -/
def dnfActionValue (task : Dict) : Except PyErr Value :=
  if dHas task "yum" then pyGetItem (.vdict task) "yum"
  else if dHas task "dnf" then pyGetItem (.vdict task) "dnf"
  else if dHas task "package" then pyGetItem (.vdict task) "package"
  else .error (.valueError ("Can not get action from: " ++ pyRepr (.vdict task)))

/-- Promotion of the package name(s) to a list (`if isinstance(pkgs, str)`);
a non-string non-list raises at the later list concatenation. -/
def pkgsAsList : Value → Except PyErr (List Value)
  | .vstr s => pure [Value.vstr s]
  | .vlist l => pure l
  | _ => .error .typeError

/-- `AnsibleTask.task_dnf` (also serving `yum` and `package`): a DNF directive
with `--latest`/`--absent`/`--exclude` flags, or one RUN `dnf update -y` when
every package is to be brought to `latest`. -/
def AnsibleTask.task_dnf (self : AnsibleTask) (task_args : Dict) :
    Except PyErr HandlerOut := do
  let tv ← dnfActionValue self.task
  let pkgs ← pyGetItem tv "name"
  let td ← match tv with
    | .vdict d => pure d
    | _ => .error .typeError
  let state0 := (dGet td "state").getD (.vstr "present")
  let state ← match state0 with
    | .vstr s => pure (Value.vstr (dnfStatesMap s))
    | .vdict _ => .error .typeError
    | .vlist _ => .error .typeError
    | v => pure v
  let exclude0 := (dGet td "exclude").getD (.vstr "")
  let excludeV : Value :=
    if truthy exclude0 then .vstr ("--exclude \x22" ++ pyStr exclude0 ++ "\x22") else exclude0
  match td.find? (fun kv => ¬(kv.1 = "name" ∨ kv.1 = "state" ∨ kv.1 = "exclude")) with
  | some kv =>
      .error (.valueError ("Not implemented key in dnf task: " ++ kv.1 ++ ": " ++ pyStr kv.2))
  | none =>
    if pkgs = Value.vstr "*" ∧ state = Value.vstr "latest" then
      pure ([[("RUN", Value.vstr ("dnf update -y " ++ pyStr excludeV))]], task_args)
    else do
      let pkgsL ← pkgsAsList pkgs
      let args : List String :=
        (if truthy excludeV then [pyStr excludeV] else []) ++
        (if state = Value.vstr "latest" then ["--latest"]
         else if state = Value.vstr "absent" then ["--absent"] else [])
      let pkgStrs ← pkgsL.mapM asStrJ
      pure ([[("DNF", Value.vstr (String.intercalate " " (args ++ pkgStrs)))]], task_args)

/-- `AnsibleTask.task_package`: delegates to `task_dnf`. -/
def AnsibleTask.task_package (self : AnsibleTask) (task_args : Dict) :
    Except PyErr HandlerOut :=
  self.task_dnf task_args

/-- `AnsibleTask.task_yum`: delegates to `task_dnf`. -/
def AnsibleTask.task_yum (self : AnsibleTask) (task_args : Dict) :
    Except PyErr HandlerOut :=
  self.task_dnf task_args

/-- `AnsibleTask.task_setup`: a single empty FACTER directive. -/
def AnsibleTask.task_setup (_self : AnsibleTask) (task_args : Dict) :
    Except PyErr HandlerOut :=
  pure ([[("FACTER", Value.vstr "")]], task_args)

/-- `AnsibleTask.task_service`: one SERVICE directive of state/enabled flags
followed by the service name(s). -/
def AnsibleTask.task_service (self : AnsibleTask) (task_args : Dict) :
    Except PyErr HandlerOut := do
  let sv ← pyGetItem (.vdict self.task) "service"
  let names0 ← pyGetItem sv "name"
  let sd ← match sv with
    | .vdict d => pure d
    | _ => .error .typeError
  let names ← match names0 with
    | .vstr s => pure [Value.vstr s]
    | .vlist l => pure l
    | _ => .error .typeError
  let state := (dGet sd "state").getD .vnone
  let servargs : List String :=
    (if state ≠ Value.vnone then
      (if state = Value.vstr "stopped" then ["--stopped"]
       else if state = Value.vstr "restarted" then ["--restarted"]
       else if state = Value.vstr "reloaded" then ["--reloaded"]
       else [])
     else [])
  let enabled := (dGet sd "enabled").getD .vnone
  let servargs := servargs ++
    (if enabled ≠ Value.vnone then
      (if truthy enabled then ["--enable"] else ["--disable"])
     else [])
  let nameStrs ← names.mapM asStrJ
  pure ([[("SERVICE", Value.vstr (String.intercalate " " (servargs ++ nameStrs)))]], task_args)

/-- `AnsibleTask.task_systemd`: SERVICE directive with the richer flag set
(`--mask`/`--unmask`, `--daemon-reload`) and a single service name. -/
def AnsibleTask.task_systemd (self : AnsibleTask) (task_args : Dict) :
    Except PyErr HandlerOut := do
  let sv ← pyGetItem (.vdict self.task) "systemd"
  let name0 ← pyGetItem sv "name"
  let sd ← match sv with
    | .vdict d => pure d
    | _ => .error .typeError
  let state := (dGet sd "state").getD .vnone
  let servargs : List String :=
    (if state ≠ Value.vnone then
      (if state = Value.vstr "stopped" then ["--stopped"]
       else if state = Value.vstr "restarted" then ["--restarted"]
       else if state = Value.vstr "reloaded" then ["--reloaded"]
       else [])
     else [])
  let enabled := (dGet sd "enabled").getD .vnone
  let servargs := servargs ++
    (if enabled ≠ Value.vnone then
      (if truthy enabled then ["--enable"] else ["--disable"])
     else [])
  let masked := (dGet sd "masked").getD .vnone
  let servargs := servargs ++
    (if masked ≠ Value.vnone then
      (if truthy masked then ["--mask"] else ["--unmask"])
     else [])
  let reload := match dGet sd "daemon_reload" with
    | some v => v
    | none => (dGet sd "daemon-reload").getD .vnone
  let servargs := servargs ++ (if truthy reload then ["--daemon-reload"] else [])
  let nameS ← asStrJ name0
  pure ([[("SERVICE", Value.vstr (String.intercalate " " (servargs ++ [nameS])))]], task_args)

/-- The `--chown` flag list shared by copy/template/file (source inlines it). -/
def chownFlag (owner group : Value) : List String :=
  if truthy owner ∧ truthy group then ["--chown " ++ pyStr owner ++ ":" ++ pyStr group]
  else if truthy owner ∨ truthy group then
    ["--chown " ++ pyStr (if truthy owner then owner else group)]
  else []

/-- The SECONTEXT directive list shared by copy/template/file; `dest` must be a
string for `" ".join`. -/
def seContext (selevel setype seuser : Value) (destS : String) : List DirMap :=
  if truthy selevel ∨ truthy setype ∨ truthy seuser then
    [[("SECONTEXT", Value.vstr (String.intercalate " "
      ((if truthy selevel then ["--selevel " ++ pyStr selevel] else []) ++
       (if truthy setype then ["--setype " ++ pyStr setype] else []) ++
       (if truthy seuser then ["--seuser " ++ pyStr seuser] else []) ++ [destS])))]]
  else []

/-- `AnsibleTask.task_copy`: staged COPY (or raw RUN `cp` when `remote_src`),
with optional `.backup` staging, validation RUN, backup removal, chmod/chown
flags and a trailing SECONTEXT directive. -/
def AnsibleTask.task_copy (self : AnsibleTask) (task_args : Dict) :
    Except PyErr HandlerOut := do
  let cv ← pyGetItem (.vdict self.task) "copy"
  let dest ← pyGetItem cv "dest"
  let cd ← match cv with
    | .vdict d => pure d
    | _ => .error .typeError
  let src := (dGet cd "src").getD .vnone
  let force := (dGet cd "force").getD (.vbool true)
  let mode ← match (dGet cd "mode").getD .vnone with
    | .vstr s => do
        let n ← octOfString s
        pure (Value.vint n)
    | v => pure v
  let owner := (dGet cd "owner").getD .vnone
  let group := (dGet cd "group").getD .vnone
  let selevel := (dGet cd "selevel").getD .vnone
  let setype := (dGet cd "setype").getD .vnone
  let seuser := (dGet cd "seuser").getD .vnone
  let backup0 := (dGet cd "backup").getD .vnone
  let validate0 := (dGet cd "validate").getD .vnone
  let backup := if truthy backup0 then Value.vstr "backup" else backup0
  let content := (dGet cd "content").getD .vnone
  if truthy content then
    .error (.notImplementedError "Content in copy task is not supported yet")
  else do
  let modeArgs ← if truthy mode then do
      let o ← fmtOct mode
      pure ["--chmod 0" ++ o]
    else pure ([] : List String)
  let copyargs : List String := modeArgs ++ chownFlag owner group
  let backup := if truthy validate0 then Value.vstr "backup" else backup
  let validate ← if truthy validate0 then do
      let vs ← match validate0 with
        | .vstr s => pure s
        | _ => .error .attributeError
      let dS ← asStrJ dest
      let base : List DirMap := [[("RUN", Value.vstr (pyReplace vs "%s" (dS ++ ".backup")))]]
      match (dGet cd "backup").getD .vnone with
      | .vnone => pure (base ++ [[("RUN", Value.vstr ("rm -f " ++ dS ++ ".backup"))]])
      | _ => pure base
    else pure ([] : List DirMap)
  let copy ←
    if truthy ((dGet cd "remote_src").getD .vnone) then
      if truthy src then do
        let base : List DirMap :=
          [[("RUN", Value.vstr ("cp -r " ++ pyStr src ++ " " ++ pyStr dest))]]
        let base := base ++
          (if truthy owner ∨ truthy group then
            [[("RUN", Value.vstr ("chown -R " ++
              (if truthy owner ∧ truthy group then pyStr owner ++ ":" ++ pyStr group
               else pyStr (if truthy owner then owner else group)) ++ " " ++ pyStr dest))]]
           else [])
        let base ← if truthy mode then do
            let o ← fmtOct mode
            pure (base ++ [[("RUN", Value.vstr ("chmod -R 0" ++ o ++ " " ++ pyStr dest))]])
          else pure base
        if truthy backup ∨ ¬ validate.isEmpty then
          pure ([[("RUN", Value.vstr
            ("cp -r " ++ pyStr src ++ " " ++ pyStr dest ++ "." ++ pyStr backup))]] ++
            validate ++ base)
        else pure base
      else
        if ¬ truthy content then .error (.valueError "No src or content in copy task")
        else .error (.notImplementedError "Content in copy task is not supported yet")
    else
      if truthy src then
        if ¬ truthy force then .error (.notImplementedError "Force is not implemented yet")
        else do
          let srcS ← asStrJ src
          let destS ← asStrJ dest
          let base : List DirMap :=
            [[("COPY", Value.vstr (String.intercalate " " (copyargs ++ [srcS, destS])))]]
          if truthy backup ∨ ¬ validate.isEmpty then
            pure ([[("COPY", Value.vstr (String.intercalate " "
              (copyargs ++ [srcS, destS ++ "." ++ pyStr backup])))]] ++ validate ++ base)
          else pure base
      else
        if ¬ truthy content then .error (.valueError "No src or content in copy task")
        else .error .nameError
  if truthy selevel ∨ truthy setype ∨ truthy seuser then do
    let destS ← asStrJ dest
    pure (copy ++ seContext selevel setype seuser destS, task_args)
  else pure (copy, task_args)

/-- `AnsibleTask.task_template`: like `task_copy` but always the staged COPY
path, with a leading `--blueprint` flag and an up-front `force` check. -/
def AnsibleTask.task_template (self : AnsibleTask) (task_args : Dict) :
    Except PyErr HandlerOut := do
  let cv ← pyGetItem (.vdict self.task) "template"
  let dest ← pyGetItem cv "dest"
  let cd ← match cv with
    | .vdict d => pure d
    | _ => .error .typeError
  let src := (dGet cd "src").getD .vnone
  let force := (dGet cd "force").getD (.vbool true)
  if ¬ truthy force then .error (.notImplementedError "Force is not implemented yet")
  else do
  let mode ← match (dGet cd "mode").getD .vnone with
    | .vstr s => do
        let n ← octOfString s
        pure (Value.vint n)
    | v => pure v
  let owner := (dGet cd "owner").getD .vnone
  let group := (dGet cd "group").getD .vnone
  let selevel := (dGet cd "selevel").getD .vnone
  let setype := (dGet cd "setype").getD .vnone
  let seuser := (dGet cd "seuser").getD .vnone
  let backup0 := (dGet cd "backup").getD .vnone
  let validate0 := (dGet cd "validate").getD .vnone
  let backup := if truthy backup0 then Value.vstr "backup" else backup0
  let modeArgs ← if truthy mode then do
      let o ← fmtOct mode
      pure ["--chmod 0" ++ o]
    else pure ([] : List String)
  let templargs : List String := ["--blueprint"] ++ modeArgs ++ chownFlag owner group
  let backup := if truthy validate0 then Value.vstr "backup" else backup
  let validate ← if truthy validate0 then do
      let vs ← match validate0 with
        | .vstr s => pure s
        | _ => .error .attributeError
      let dS ← asStrJ dest
      let base : List DirMap := [[("RUN", Value.vstr (pyReplace vs "%s" (dS ++ ".backup")))]]
      match (dGet cd "backup").getD .vnone with
      | .vnone => pure (base ++ [[("RUN", Value.vstr ("rm -f " ++ dS ++ ".backup"))]])
      | _ => pure base
    else pure ([] : List DirMap)
  let srcS ← asStrJ src
  let destS ← asStrJ dest
  let copy : List DirMap :=
    [[("COPY", Value.vstr (String.intercalate " " (templargs ++ [srcS, destS])))]]
  let copy :=
    if truthy backup ∨ ¬ validate.isEmpty then
      [[("COPY", Value.vstr (String.intercalate " "
        (templargs ++ [srcS, destS ++ "." ++ pyStr backup])))]] ++ validate ++ copy
    else copy
  pure (copy ++ seContext selevel setype seuser destS, task_args)

/-- The inner `get_shell_command` helper of `task_file`: conditional RUN lines
applying chmod/chown/chcon. -/
def fileShellCmds (mode owner group setype recurse path : Value)
    (cstart cend : String) : Except PyErr (List DirMap) := do
  let recS := if truthy recurse then " -R" else ""
  let mrun ← if truthy mode then do
      let o ← fmtOct mode
      pure [[("RUN", Value.vstr
        (cstart ++ "chmod" ++ recS ++ " 0" ++ o ++ " " ++ pyStr path ++ cend))]]
    else pure ([] : List DirMap)
  let orun : List DirMap :=
    if truthy owner ∨ truthy group then
      [[("RUN", Value.vstr (cstart ++ "chown" ++ recS ++ " " ++
        rstripColon ((if truthy owner then pyStr owner else "") ++ ":" ++
          (if truthy group then pyStr group else "")) ++ " " ++ pyStr path ++ cend))]]
    else []
  let trun : List DirMap :=
    if truthy setype then
      [[("RUN", Value.vstr (cstart ++ "chcon" ++ recS ++ " -t " ++ pyStr setype ++ " " ++
        pyStr path ++ cend))]]
    else []
  pure (mrun ++ orun ++ trun)

/-- `AnsibleTask.task_file`: WORKDIR/SECONTEXT for directories (plus recursive
RUNs when requested), RUN `rm -rf` for absent, guarded chmod/chown/chcon RUNs
for touch/file states. -/
def AnsibleTask.task_file (self : AnsibleTask) (task_args : Dict) :
    Except PyErr HandlerOut := do
  let fv ← pyGetItem (.vdict self.task) "file"
  let path ← pyGetItem fv "path"
  let fd ← match fv with
    | .vdict d => pure d
    | _ => .error .typeError
  let state := (dGet fd "state").getD (.vstr "file")
  let mode ← match (dGet fd "mode").getD .vnone with
    | .vstr s => do
        let n ← octOfString s
        pure (Value.vint n)
    | v => pure v
  let owner := (dGet fd "owner").getD .vnone
  let group := (dGet fd "group").getD .vnone
  let selevel := (dGet fd "selevel").getD .vnone
  let setype := (dGet fd "setype").getD .vnone
  let seuser := (dGet fd "seuser").getD .vnone
  let recurse := (dGet fd "recurse").getD .vnone
  if state = Value.vstr "directory" then do
    let modeArgs ← if truthy mode then do
        let o ← fmtOct mode
        pure ["--chmod 0" ++ o]
      else pure ([] : List String)
    let wrkdir_args : List String := modeArgs ++ chownFlag owner group
    let pathS ← asStrJ path
    let sec := seContext selevel setype seuser pathS
    let result : DirMap :=
      [("WORKDIR", Value.vstr (lstripWs (String.intercalate " " (wrkdir_args ++ [pathS]))))]
    if ¬ truthy recurse then
      pure ([result] ++ sec, task_args)
    else do
      let run ← fileShellCmds mode owner group setype (.vbool true) path "" ""
      pure ([result] ++ sec ++ run, task_args)
  else if state = Value.vstr "absent" then
    pure ([[("RUN", Value.vstr ("rm -rf " ++ pyStr path))]], task_args)
  else if state = Value.vstr "touch" ∨ state = Value.vstr "file" then do
    let cstart := if state = Value.vstr "file" then "if [ -e " ++ pyStr path ++ " ]; then " else ""
    let cend := if state = Value.vstr "file" then "; fi" else ""
    let result : List DirMap :=
      if state = Value.vstr "touch" then [[("RUN", Value.vstr ("touch " ++ pyStr path))]]
      else []
    let run ← fileShellCmds mode owner group setype recurse path cstart cend
    pure (result ++ run, task_args)
  else
    .error (.notImplementedError ("Not implemented file state " ++ pyStr state))

/-- The module names for which an `AnsibleTask.task_<module>` method exists
(the `hasattr` dispatch of `parse`). -/
def supportedModules : List String :=
  ["shell", "command", "set_fact", "dnf", "package", "yum", "setup", "service",
   "systemd", "copy", "template", "file"]

/-- The `getattr`-based dispatch of `parse` to the `task_*` handlers. -/
def AnsibleTask.dispatch (self : AnsibleTask) (m : String) (task_args : Dict) :
    Except PyErr HandlerOut :=
  if m = "shell" then self.task_shell task_args
  else if m = "command" then self.task_command task_args
  else if m = "set_fact" then self.task_set_fact task_args
  else if m = "dnf" then self.task_dnf task_args
  else if m = "package" then self.task_package task_args
  else if m = "yum" then self.task_yum task_args
  else if m = "setup" then self.task_setup task_args
  else if m = "service" then self.task_service task_args
  else if m = "systemd" then self.task_systemd task_args
  else if m = "copy" then self.task_copy task_args
  else if m = "template" then self.task_template task_args
  else if m = "file" then self.task_file task_args
  else .error .attributeError

/-- Lines 97-106 of `AnsibleTask.parse`: compose the comment from the task
residue and the `block`/`include`/`role`/`play` scope contexts, prepending each
scope's `context` entry in that iteration order (so the final text reads
play, role, include, block, task from top to bottom). -/
def composeContext (taskContext : String)
    (blockC includeC roleC playC : Option Dict) : String :=
  let ctx := if taskContext ≠ "" then "TASK-CONTEXT:\n" ++ taskContext else ""
  let step := fun (c : String) (sc : Option Dict) =>
    match sc with
    | some d =>
        if ¬ d.isEmpty ∧ dHas d "context" then
          pyStr ((dGet d "context").getD .vnone) ++ "\n" ++ c
        else c
    | none => c
  "\n" ++ step (step (step (step ctx blockC) includeC) roleC) playC

/-- The body of `AnsibleTask.parse` before comments are attached: resolve and
normalize the action, reject structural modules, dispatch (or fall back to the
ECHO diagnostic), and return the named directive maps plus the task-context
string. -/
def AnsibleTask.parseCore (taskAttrs : List String) (self : AnsibleTask) :
    Except PyErr (List DirMap × String) := do
  let (task_module, task) ← resolveAndNormalize taskAttrs self.task
  if task_module ∈ ["block", "include", "include_tasks"] then
    .error (.valueError ("Can not parse module " ++ task_module ++
      " - use a specific class for it"))
  else do
  let self := AnsibleTask.mk task self.blockC self.includeC self.roleC self.playC
  let task_args := task.filter (fun kv => ¬(kv.1 = task_module ∨ kv.1 = "name"))
  let name := (dGet task "name").getD (.vstr "Unnamed task")
  if ¬ task_module ∈ supportedModules then
    pure ([[("NAME", name), ("ECHO", Value.vstr ("Conversion of task module \x27" ++
      task_module ++ "\x27 is not implemented yet!"))]], yaml_dump (.vdict task))
  else do
    let (parsed, residue) ← self.dispatch task_module task_args
    pure (parsed.map (fun d => ("NAME", name) :: d),
      if residue.isEmpty then "" else yaml_dump (.vdict residue))

/-- `AnsibleTask.parse`: the full parser for one task, composing the scope
context chain and attaching it as the start comment of every directive. -/
def AnsibleTask.parse (taskAttrs : List String) (self : AnsibleTask) :
    Except PyErr (List Directive) := do
  let (tp, tc) ← self.parseCore taskAttrs
  let ctx := composeContext tc self.blockC self.includeC self.roleC self.playC
  pure (tp.map (fun d => Directive.mk d (some ctx)))

/-! ## Scope contexts and the structure walker -/

/-- `AnsibleBlock.add_context`: the block attributes the engine does not
translate, rendered under the `## BLOCK-CONTEXT:` header. -/
def blockAddContext (blockAttrs : List String) (block : Dict) : String :=
  String.intercalate "\n" ("## BLOCK-CONTEXT:" ::
    (block.filter (fun kv => kv.1 ∈ blockAttrs ∧ ¬(kv.1 = "block" ∨ kv.1 = "environment"))).map
      (fun kv => kv.1 ++ ": " ++ pyStr kv.2))

/-- `AnsibleIncludeTasks.add_context`: untranslated include attributes under
the `## INCLUDE-CONTEXT:` header. -/
def includeAddContext (taskAttrs : List String) (incl : Dict) : String :=
  String.intercalate "\n" ("## INCLUDE-CONTEXT:" ::
    (incl.filter (fun kv => kv.1 ∈ taskAttrs ∧
      ¬(kv.1 = "include" ∨ kv.1 = "include_tasks" ∨ kv.1 = "environment"))).map
      (fun kv => kv.1 ++ ": " ++ pyStr kv.2))

/-- `AnsiblePlay.add_context`: untranslated play attributes under the
`## PLAYBOOK-CONTEXT:` header. -/
def playAddContext (playbookAttrs : List String) (playbook : Dict) : String :=
  String.intercalate "\n" ("## PLAYBOOK-CONTEXT:" ::
    (playbook.filter (fun kv => kv.1 ∈ playbookAttrs ∧
      ¬(kv.1 = "environment" ∨ kv.1 = "hosts" ∨ kv.1 = "gather_facts" ∨ kv.1 = "tasks" ∨
        kv.1 = "pre_tasks" ∨ kv.1 = "post_tasks" ∨ kv.1 = "vars"))).map
      (fun kv => kv.1 ++ ": " ++ pyStr kv.2))

/-- The keyword-argument scope chain threaded through the walker
(`block=`, `include=`, `role=`, `play=`). -/
structure ScopeKwargs where
  blockC : Option Dict
  includeC : Option Dict
  roleC : Option Dict
  playC : Option Dict
deriving Repr, DecidableEq

/-- `os.path.join` for the include-prefix handling (simplified to the
absolute/relative distinction). -/
def osPathJoin (a b : String) : String :=
  if "/".data.isPrefixOf b.data then b
  else if "/".data.isSuffixOf a.data then a ++ b
  else a ++ "/" ++ b

mutual
/-- `AnsibleTasksList.parse`: flatten a task list. The fuel parameter stands
for Python's recursion limit (the source has no cycle guard; a divergent
include chain raises `RecursionError`); one unit of fuel is consumed per
walker step so that the recursion is structural on the fuel. -/
def parseTasksList (fs : String → Except PyErr Value) (tattrs battrs : List String)
    (fuel : Nat) (pathPre : Option String) (kw : ScopeKwargs) (tasks : Value) :
    Except PyErr (List Directive) :=
  match fuel with
  | 0 => .error .recursionError
  | fuel + 1 =>
    match tasks with
    | .vlist l => parseTasksAux fs tattrs battrs fuel pathPre kw l
    | _ => .error .typeError

/-- The element loop of `AnsibleTasksList.parse`: classify each node as block,
include, or plain task and extend the flattened result in order. -/
def parseTasksAux (fs : String → Except PyErr Value) (tattrs battrs : List String)
    (fuel : Nat) (pathPre : Option String) (kw : ScopeKwargs) (l : List Value) :
    Except PyErr (List Directive) :=
  match fuel with
  | 0 => .error .recursionError
  | fuel + 1 =>
    match l with
    | [] => pure []
    | t :: ts => do
      let isBlock ← pyIn "block" t
      let r ←
        if isBlock then do
          let td ← match t with
            | .vdict d => pure d
            | _ => .error .typeError
          blockParse fs tattrs battrs fuel kw td
        else do
          let isInc ← pyIn "include" t
          let isInc2 ← pyIn "include_tasks" t
          let isInc3 ← pyIn "import_tasks" t
          if isInc || isInc2 || isInc3 then do
            let td ← match t with
              | .vdict d => pure d
              | _ => .error .typeError
            includeParse fs tattrs battrs fuel pathPre kw td
          else do
            let td ← match t with
              | .vdict d => pure d
              | _ => .error .typeError
            AnsibleTask.parse tattrs (AnsibleTask.mk td kw.blockC kw.includeC kw.roleC kw.playC)
      let rest ← parseTasksAux fs tattrs battrs fuel pathPre kw ts
      pure (r ++ rest)

/-- `AnsibleBlock.parse`: build one ENV directive per block-level environment
entry into `result`, set the block's `context`, then rebind `result` to the
flattened nested list — faithfully reproducing the source, where the second
assignment discards the ENV directives. A `block` keyword already present in
the inherited kwargs raises `TypeError` (duplicate keyword argument). -/
def blockParse (fs : String → Except PyErr Value) (tattrs battrs : List String)
    (fuel : Nat) (kw : ScopeKwargs) (block : Dict) :
    Except PyErr (List Directive) :=
  match fuel with
  | 0 => .error .recursionError
  | fuel + 1 => do
    let result ← if dHas block "environment" then do
        let ed ← asDict ((dGet block "environment").getD .vnone)
        pure (ed.map (fun kv => Directive.mk
          [("NAME", Value.vstr ("Set block env value for " ++ kv.1)),
           ("ENV", Value.vstr (kv.1 ++ " " ++ pyStr kv.2))] none))
      else pure ([] : List Directive)
    let block := dSet block "context" (.vstr (blockAddContext battrs block))
    let tasksV ← pyGetItem (.vdict block) "block"
    if kw.blockC.isSome then .error .typeError
    else do
      let result ← parseTasksList fs tattrs battrs fuel none
        (ScopeKwargs.mk (some block) kw.includeC kw.roleC kw.playC) tasksV
      pure result

/-- `AnsibleIncludeTasks.parse`: same shape as `blockParse` (and the same
discarded-ENV rebinding), loading the referenced tasks file through the
filesystem oracle `fs`, honouring the role-directory prefix. -/
def includeParse (fs : String → Except PyErr Value) (tattrs battrs : List String)
    (fuel : Nat) (pathPre : Option String) (kw : ScopeKwargs) (incl : Dict) :
    Except PyErr (List Directive) :=
  match fuel with
  | 0 => .error .recursionError
  | fuel + 1 => do
    let result ← if dHas incl "environment" then do
        let ed ← asDict ((dGet incl "environment").getD .vnone)
        pure (ed.map (fun kv => Directive.mk
          [("NAME", Value.vstr ("Set include env value for " ++ kv.1)),
           ("ENV", Value.vstr (kv.1 ++ " " ++ pyStr kv.2))] none))
      else pure ([] : List Directive)
    let incl := dSet incl "context" (.vstr (includeAddContext tattrs incl))
    let tf0 := (dGet incl "include").getD .vnone
    let tasks_file := if truthy tf0 then tf0 else (dGet incl "include_tasks").getD .vnone
    let tfS ← match tasks_file with
      | .vstr s => pure s
      | _ => .error .typeError
    let tfS := match pathPre with
      | some p => if p.isEmpty then tfS else osPathJoin p tfS
      | none => tfS
    let tasks ← fs tfS
    if kw.includeC.isSome then .error .typeError
    else do
      let result ← parseTasksList fs tattrs battrs fuel none
        (ScopeKwargs.mk kw.blockC (some incl) kw.roleC kw.playC) tasks
      pure result
end

/-! ## Representative allow-lists

`a2dd/constants.py` is not among the provided sources; these concrete lists
instantiate the allow-list parameters in witnesses and counterexamples. -/

/-- Modelled from the spec: `TASK_ATTRS`, the fixed control-attribute
allow-list for task nodes (§3 TaskNode) — the standard task keywords of the
source DSL. All general theorems quantify over this list; it is only used to
instantiate witnesses. -/
def TASK_ATTRS : List String :=
  ["action", "any_errors_fatal", "args", "become", "become_method", "become_user",
   "changed_when", "check_mode", "collections", "connection", "delay", "delegate_to",
   "diff", "environment", "failed_when", "ignore_errors", "local_action", "loop",
   "loop_control", "module_defaults", "name", "no_log", "notify", "poll", "register",
   "remote_user", "retries", "run_once", "tags", "throttle", "timeout", "until",
   "vars", "when"]

/-- Modelled from the spec: `BLOCK_ATTRS`, the allow-list for block nodes
(§4.3): shared control attributes a block may carry. -/
def BLOCK_ATTRS : List String :=
  ["always", "become", "become_user", "block", "delegate_to", "environment",
   "ignore_errors", "name", "rescue", "tags", "vars", "when"]

/-- Modelled from the spec: `PLAYBOOK_ATTRS`, the allow-list for play nodes
(§4.3/§4.5). -/
def PLAYBOOK_ATTRS : List String :=
  ["become", "environment", "gather_facts", "hosts", "name", "post_tasks",
   "pre_tasks", "remote_user", "roles", "serial", "strategy", "tags", "tasks",
   "vars", "vars_files", "when"]

/-! ## Concrete claim inputs -/

/-- C1 failing input: a block carrying an environment mapping and one nested
command task. -/
def c1BlockNode : Dict :=
  [("environment", .vdict [("A", .vstr "1")]),
   ("block", .vlist [.vdict [("name", .vstr "t"), ("command", .vstr "echo hi")]])]

/-- A filesystem oracle with no files (no include is ever reached where used). -/
def noFs : String → Except PyErr Value := fun p => .error (.fileNotFoundError p)

/-- C5 counterexample input: a validating copy task that also sets an SELinux
attribute. -/
def c5SetypeTask : Dict :=
  [("copy", .vdict [("src", .vstr "s"), ("dest", .vstr "d"),
    ("validate", .vstr "check %s"), ("setype", .vstr "x")])]

/-- The five directives `task_copy` yields for `c5SetypeTask`. -/
def c5SetypeOut : List DirMap :=
  [[("COPY", .vstr "s d.backup")], [("RUN", .vstr "check d.backup")],
   [("RUN", .vstr "rm -f d.backup")], [("COPY", .vstr "s d")],
   [("SECONTEXT", .vstr "--setype x d")]]

/-- C6 counterexample input: `force: false` together with `remote_src: true`. -/
def c6RemoteForceTask : Dict :=
  [("copy", .vdict [("src", .vstr "s"), ("dest", .vstr "d"),
    ("remote_src", .vbool true), ("force", .vbool false)])]

/-- Concrete dnf attribute mapping with an unrecognized state. -/
def c10Td : Dict :=
  [("name", .vstr "vim"), ("state", .vstr "weird"), ("exclude", .vstr "ker*")]

/-- Concrete dnf task for the C10 witness. -/
def c10Task : Dict := [("dnf", .vdict c10Td)]

/-- C4 counterexample input, qualified spelling (action key first). -/
def c4Qual : Dict :=
  [("ns.coll.badmod", .vdict [("a", .vstr "1")]), ("name", .vstr "t")]

/-- C4 counterexample input, short spelling. -/
def c4Short : Dict :=
  [("badmod", .vdict [("a", .vstr "1")]), ("name", .vstr "t")]

/-- The directive the qualified C4 node parses to. -/
def c4QualOut : Directive :=
  Directive.mk
    [("NAME", .vstr "t"),
     ("ECHO", .vstr "Conversion of task module \x27badmod\x27 is not implemented yet!")]
    (some "\nTASK-CONTEXT:\nname: t\nbadmod: \x7b\x27a\x27: \x271\x27\x7d\n")

/-- The directive the short C4 node parses to. -/
def c4ShortOut : Directive :=
  Directive.mk
    [("NAME", .vstr "t"),
     ("ECHO", .vstr "Conversion of task module \x27badmod\x27 is not implemented yet!")]
    (some "\nTASK-CONTEXT:\nbadmod: \x7b\x27a\x27: \x271\x27\x7d\nname: t\n")

/-! ## Helper lemmas about the dictionary model -/

theorem dHas_of_dGet {d : Dict} {k : String} {v : Value} (h : dGet d k = some v) :
    dHas d k = true := by
  induction d with
  | nil => simp [dGet] at h
  | cons kv rest ih =>
      by_cases hk : kv.1 == k
      · simp [dHas, hk]
      · simp only [dGet, List.find?] at h
        simp only [hk] at h
        simp only [dHas, List.any_cons, hk, Bool.false_or]
        exact ih h

theorem dGet_eq_none_of_dHas {d : Dict} {k : String} (h : dHas d k = false) :
    dGet d k = none := by
  induction d with
  | nil => simp [dGet]
  | cons kv rest ih =>
      simp only [dHas, List.any_cons, Bool.or_eq_false_iff] at h
      simp only [dGet, List.find?, h.1]
      exact ih h.2

theorem isEmpty_append_left (a b : String) (h : a.isEmpty = false) :
    (a ++ b).isEmpty = false := by
  rw [Bool.eq_false_iff] at h ⊢
  intro hc
  apply h
  rw [String.isEmpty_iff] at hc ⊢
  have hd := congrArg String.data hc
  rw [String.data_append] at hd
  rcases List.append_eq_nil.mp hd with ⟨h1, -⟩
  exact String.ext h1

@[simp] theorem truthy_vnone : truthy .vnone = false := rfl

@[simp] theorem truthy_vbool (b : Bool) : truthy (.vbool b) = b := rfl

@[simp] theorem truthy_vstr (s : String) : truthy (.vstr s) = !s.isEmpty := rfl

@[simp] theorem truthy_vdict (d : Dict) : truthy (.vdict d) = !d.isEmpty := rfl

theorem dHas_append (d1 d2 : Dict) (k : String) :
    dHas (d1 ++ d2) k = (dHas d1 k || dHas d2 k) := by
  simp [dHas, List.any_append]

theorem dHas_eq_false_iff {d : Dict} {k : String} :
    dHas d k = false ↔ ∀ kv ∈ d, kv.1 ≠ k := by
  simp [dHas, List.any_eq_false]

theorem dGet_append_right {d1 : Dict} (d2 : Dict) {k : String} (h : dHas d1 k = false) :
    dGet (d1 ++ d2) k = dGet d2 k := by
  induction d1 with
  | nil => simp
  | cons kv rest ih =>
      simp only [dHas, List.any_cons, Bool.or_eq_false_iff] at h
      simp only [List.cons_append, dGet, List.find?, h.1]
      exact ih h.2

theorem dPop_append_right {d1 : Dict} (d2 : Dict) {k : String} (h : dHas d1 k = false) :
    dPop (d1 ++ d2) k = d1 ++ dPop d2 k := by
  unfold dPop
  apply List.eraseP_append_right
  intro kv hkv
  rw [dHas_eq_false_iff] at h
  simpa using h kv hkv

theorem dSet_not_has {d : Dict} {k : String} (v : Value) (h : dHas d k = false) :
    dSet d k v = d ++ [(k, v)] := by
  simp [dSet, h]

theorem dHas_single (q : String) (v : Value) (k : String) :
    dHas [(q, v)] k = (q == k) := by
  simp [dHas]

theorem dGet_single_self (k : String) (v : Value) : dGet [(k, v)] k = some v := by
  simp [dGet, List.find?]

theorem dPop_single_self (k : String) (v : Value) : dPop [(k, v)] k = [] := by
  simp [dPop, List.eraseP]

theorem takeWhile_all_append {p : Char → Bool} {l : List Char} {b : Char} {r : List Char}
    (hl : ∀ a ∈ l, p a = true) (hb : p b = false) :
    (l ++ b :: r).takeWhile p = l := by
  induction l with
  | nil => simp [List.takeWhile_cons, hb]
  | cons x xs ih =>
      have hx := hl x (by simp)
      simp only [List.cons_append, List.takeWhile_cons, hx, if_true]
      rw [ih (fun a ha => hl a (by simp [ha]))]

theorem lastDotSeg_append (pre m : String) (hm : ¬ '.' ∈ m.data) :
    lastDotSeg (pre ++ "." ++ m) = m := by
  unfold lastDotSeg
  have hdata : (pre ++ "." ++ m).data = pre.data ++ '.' :: m.data := by
    simp [String.data_append]
  rw [hdata, List.reverse_append, List.reverse_cons, List.append_assoc,
    List.singleton_append]
  rw [takeWhile_all_append (p := fun c => decide (c ≠ '.'))
    (fun a ha => by
      have : a ∈ m.data := List.mem_reverse.mp ha
      simp
      intro hc
      exact hm (hc ▸ this))
    (by simp)]
  rw [List.reverse_reverse]

theorem lastDotSeg_no_dot (s : String) : ¬ '.' ∈ (lastDotSeg s).data := by
  unfold lastDotSeg
  intro h
  have h2 : '.' ∈ (s.data.reverse.takeWhile (fun c => decide (c ≠ '.'))) := by
    simpa using h
  have := List.mem_takeWhile_imp h2
  simp at this

theorem directActionSet_append_single (tattrs : List String) (rest : Dict) (q : String)
    (v : Value)
    (hrest : ∀ kv ∈ rest, kv.1 ∈ tattrs ∨ ("with_".data.isPrefixOf kv.1.data))
    (hq1 : ¬ q ∈ tattrs) (hq2 : ¬ ("with_".data.isPrefixOf q.data)) :
    directActionSet tattrs (rest ++ [(q, v)]) = [q] := by
  unfold directActionSet
  have hfil : (rest.map Prod.fst).filter
      (fun k => ¬ k ∈ tattrs ∧ ¬ ("with_".data.isPrefixOf k.data)) = [] := by
    rw [List.filter_eq_nil_iff]
    intro a ha
    rcases List.mem_map.mp ha with ⟨kv, hkv, rfl⟩
    rcases hrest kv hkv with h | h <;> simp [h]
  have hfq : (([(q, v)] : Dict).map Prod.fst).filter
      (fun k => ¬ k ∈ tattrs ∧ ¬ ("with_".data.isPrefixOf k.data)) = [q] := by
    simp [hq1]
    simpa using hq2
  rw [List.map_append, List.filter_append, hfil, hfq]
  simp

theorem dHas_iff_exists {d : Dict} {k : String} :
    dHas d k = true ↔ ∃ kv ∈ d, kv.1 = k := by
  simp [dHas, List.any_eq_true]

theorem dGet_mapReplace (d : Dict) (k : String) (v : Value) :
    dGet (d.map (fun kv => if kv.1 == k then (k, v) else kv)) k =
      if dHas d k then some v else none := by
  induction d with
  | nil => simp [dGet, dHas]
  | cons kv rest ih =>
      by_cases hk : kv.1 = k
      · simp [dGet, dHas, List.find?, hk]
      · have hk2 : (kv.1 == k) = false := by simp [hk]
        simp [dGet, dHas, List.find?, hk2] at ih ⊢
        rw [hk2]
        simpa using ih

theorem dGet_dSet (d : Dict) (k : String) (v : Value) :
    dGet (dSet d k v) k = some v := by
  unfold dSet
  by_cases h : dHas d k = true
  · rw [if_pos h, dGet_mapReplace, if_pos h]
  · rw [if_neg h, dGet_append_right _ (Bool.eq_false_iff.mpr h)]
    exact dGet_single_self _ _

theorem keys_dSet_of_has {d : Dict} {k : String} (v : Value) (h : dHas d k = true) :
    (dSet d k v).map Prod.fst = d.map Prod.fst := by
  unfold dSet
  rw [if_pos h, List.map_map]
  apply List.map_congr_left
  intro kv _
  by_cases hk : kv.1 = k
  · simp [hk]
  · simp [hk]

theorem dHas_congr_keys {d1 d2 : Dict} (h : d1.map Prod.fst = d2.map Prod.fst)
    (k : String) : dHas d1 k = dHas d2 k := by
  have e : ∀ d : Dict, dHas d k = (d.map Prod.fst).any (fun x => x == k) := by
    intro d
    induction d with
    | nil => simp [dHas]
    | cons kv rest ih => simp [dHas, List.any_cons] at ih ⊢; rw [ih]
  rw [e, e, h]

theorem directActionSet_congr_keys {tattrs : List String} {d1 d2 : Dict}
    (h : d1.map Prod.fst = d2.map Prod.fst) :
    directActionSet tattrs d1 = directActionSet tattrs d2 := by
  unfold directActionSet
  rw [h]

theorem dHas_dPop_imp {d : Dict} {a k : String} (h : dHas (dPop d a) k = true) :
    dHas d k = true := by
  rw [dHas_iff_exists] at h ⊢
  rcases h with ⟨kv, hkv, hk⟩
  exact ⟨kv, List.mem_of_mem_eraseP hkv, hk⟩

theorem keys_dPop (d : Dict) (a : String) :
    (dPop d a).map Prod.fst = (d.map Prod.fst).eraseP (fun x => x == a) := by
  unfold dPop
  induction d with
  | nil => simp
  | cons kv rest ih =>
      by_cases hk : kv.1 = a
      · simp [List.eraseP_cons, hk]
      · have hk2 : (kv.1 == a) = false := by simp [hk]
        simp [List.eraseP_cons, hk2, ih]

theorem filter_eraseP_eq_nil {p : String → Bool} {l : List String} {a : String}
    (h : l.filter p = [a]) : (l.eraseP (fun x => x == a)).filter p = [] := by
  induction l with
  | nil => simp
  | cons x xs ih =>
      by_cases hx : p x = true
      · rw [List.filter_cons_of_pos hx] at h
        injection h with h1 h2
        subst h1
        simp only [List.eraseP_cons, beq_self_eq_true, cond_true]
        exact h2
      · rw [List.filter_cons_of_neg (by simpa using hx)] at h
        have hxa : x ≠ a := by
          intro he
          apply hx
          have ha : a ∈ xs.filter p := by rw [h]; simp
          rw [he]
          exact (List.mem_filter.mp ha).2
        have hxa2 : (x == a) = false := by simp [hxa]
        simp only [List.eraseP_cons, hxa2, cond_false]
        rw [List.filter_cons_of_neg (by simpa using hx)]
        exact ih h

theorem dedup_singleton_mem {l : List String} {a x : String} (h : l.dedup = [a])
    (hx : x ∈ l) : x = a := by
  have : x ∈ l.dedup := List.mem_dedup.mpr hx
  rw [h] at this
  simpa using this

theorem get_task_action_direct {tattrs : List String} {task : Dict} {a : String}
    (hna : dHas task "action" = false) (hnla : dHas task "local_action" = false)
    (hset : directActionSet tattrs task = [a]) :
    get_task_action tattrs task = .ok (.vstr a) := by
  simp [get_task_action, hna, hnla, hset, pure, Except.pure]

/-! ## The claims -/

/-- C1 (code bug in `AnsibleBlock.parse`): for a block node carrying an
environment mapping, the ENV directives are built and then discarded by the
rebinding of `result`, so the returned job sequence contains no ENV directive
at all — against both the spec and the evident intent of the dead code. The
flattened output of the failing input is exactly one RUN directive. -/
theorem c1_block_env_directives_dropped :
    blockParse noFs TASK_ATTRS BLOCK_ATTRS 5 (ScopeKwargs.mk none none none none)
        c1BlockNode =
      .ok [Directive.mk
        [("NAME", .vstr "t"), ("RUN", .vstr "export A=\x221\x22;\necho hi")]
        (some "\n## BLOCK-CONTEXT:\n")] ∧
    ([Directive.mk
        [("NAME", .vstr "t"), ("RUN", .vstr "export A=\x221\x22;\necho hi")]
        (some "\n## BLOCK-CONTEXT:\n")].all
      (fun d => !dHas d.entries "ENV")) = true :=
  ⟨rfl, rfl⟩

/-- C5 counterexample: a copy task satisfying all the claim's conditions
(source path, no `remote_src`, `%s`-validation, no backup attribute) that also
sets `setype` yields five directives — a trailing SECONTEXT — not exactly the
four the claim allows. -/
theorem c5_counterexample_setype :
    (AnsibleTask.mk c5SetypeTask none none none none).task_copy [] =
      .ok (c5SetypeOut, []) ∧ c5SetypeOut.length ≠ 4 :=
  ⟨rfl, by decide⟩

/-- C5 (amended): for a copy task with a source path, no `remote_src`, a
validation command (containing `%s`), no backup attribute, no inline content
and no SELinux attributes, `task_copy` returns exactly, in order: the staged
COPY to `dest.backup`, the validation RUN with `%s` replaced by the backup
path, the backup-removal RUN, and the real COPY to `dest`. -/
theorem c5_backup_validate_sequence
    (t c args : Dict) (src dest vs : String) (bc ic rc pc : Option Dict)
    (h1 : dGet t "copy" = some (.vdict c))
    (h2 : dGet c "dest" = some (.vstr dest))
    (h3 : dGet c "src" = some (.vstr src)) (h3t : src ≠ "")
    (h4 : dGet c "validate" = some (.vstr vs)) (h4t : vs ≠ "")
    (h4s : substr "%s" vs = true)
    (h5 : dGet c "backup" = none)
    (h6 : dGet c "mode" = none) (h7 : dGet c "owner" = none) (h8 : dGet c "group" = none)
    (h9 : dGet c "selevel" = none) (h10 : dGet c "setype" = none)
    (h11 : dGet c "seuser" = none) (h12 : dGet c "content" = none)
    (h13 : dGet c "remote_src" = none) (h14 : dGet c "force" = none) :
    (AnsibleTask.mk t bc ic rc pc).task_copy args =
      .ok ([[("COPY", .vstr (String.intercalate " " [src, dest ++ "." ++ "backup"]))],
            [("RUN", .vstr (pyReplace vs "%s" (dest ++ ".backup")))],
            [("RUN", .vstr ("rm -f " ++ dest ++ ".backup"))],
            [("COPY", .vstr (String.intercalate " " [src, dest]))]], args) := by
  have hv : vs.isEmpty = false := by
    rw [Bool.eq_false_iff]
    intro hc
    exact h4t ((String.isEmpty_iff vs).mp hc)
  have hs : src.isEmpty = false := by
    rw [Bool.eq_false_iff]
    intro hc
    exact h3t ((String.isEmpty_iff src).mp hc)
  simp [AnsibleTask.task_copy, pyGetItem, bind, Except.bind, pure, Except.pure, pyStr,
    chownFlag, seContext, asStrJ, h1, h2, h3, h4, h5, h6, h7, h8, h9, h10, h11,
    h12, h13, h14, hv, hs]

/-- Witness for `c5_backup_validate_sequence` at a concrete validating copy. -/
theorem c5_backup_validate_sequence_witness :
    (AnsibleTask.mk [("copy", .vdict [("src", .vstr "s"), ("dest", .vstr "d"),
        ("validate", .vstr "check %s")])] none none none none).task_copy [] =
      .ok ([[("COPY", .vstr "s d.backup")], [("RUN", .vstr "check d.backup")],
            [("RUN", .vstr "rm -f d.backup")], [("COPY", .vstr "s d")]], []) := by
  have h := c5_backup_validate_sequence
    [("copy", .vdict [("src", .vstr "s"), ("dest", .vstr "d"),
      ("validate", .vstr "check %s")])]
    [("src", .vstr "s"), ("dest", .vstr "d"), ("validate", .vstr "check %s")] []
    "s" "d" "check %s" none none none none
    rfl rfl rfl (by decide) rfl (by decide) (by decide)
    rfl rfl rfl rfl rfl rfl rfl rfl rfl rfl
  rw [h]
  rfl

/-- C3: for a shell task whose command is a string, with a `chdir` under
`args` and environment mappings at play, block and task scope, the single RUN
payload is, in order: the `cd` line, one export line per play-scope entry,
then per block-scope entry, then per task-scope entry (a re-exported name is
appended, never removed), and finally the command. -/
theorem c3_shell_payload_order
    (t argsd pd bd pe be te task_args : Dict) (cmd : String) (dirv : Value)
    (hsh : dGet t "shell" = some (.vstr cmd))
    (hargs : dGet t "args" = some (.vdict argsd))
    (hcd : dGet argsd "chdir" = some dirv)
    (hpe : dGet pd "environment" = some (.vdict pe))
    (hbe : dGet bd "environment" = some (.vdict be))
    (hte : dGet t "environment" = some (.vdict te)) :
    (AnsibleTask.mk t (some bd) none none (some pd)).task_shell task_args =
      .ok ([[("RUN", .vstr (String.intercalate "\n"
        ((("cd " ++ pyStr dirv ++ ";") :: (pe.map exportLine ++ be.map exportLine ++
          te.map exportLine)) ++ [cmd])))]],
        dPop (dPop (dPop (dPop task_args "environment") "chdir") "name") "args") := by
  simp [AnsibleTask.task_shell, pyGetItem, pyIn, bind, Except.bind, pure, Except.pure,
    asDict, List.foldlM, hsh, hargs, hcd, hpe, hbe, hte,
    dHas_of_dGet hsh, dHas_of_dGet hargs, dHas_of_dGet hcd,
    dHas_of_dGet hpe, dHas_of_dGet hbe, dHas_of_dGet hte]

/-- Witness for `c3_shell_payload_order`: play={A:1}, block={B:2}, task={A:3}
produce the three exports in that order with the earlier export retained. -/
theorem c3_shell_payload_order_witness :
    (AnsibleTask.mk
      [("shell", .vstr "echo hi"), ("args", .vdict [("chdir", .vstr "/tmp")]),
       ("environment", .vdict [("A", .vstr "3")])]
      (some [("environment", .vdict [("B", .vstr "2")])]) none none
      (some [("environment", .vdict [("A", .vstr "1")])])).task_shell [] =
      .ok ([[("RUN", .vstr
        "cd /tmp;\nexport A=\x221\x22;\nexport B=\x222\x22;\nexport A=\x223\x22;\necho hi")]],
        []) := by
  have h := c3_shell_payload_order
    [("shell", .vstr "echo hi"), ("args", .vdict [("chdir", .vstr "/tmp")]),
     ("environment", .vdict [("A", .vstr "3")])]
    [("chdir", .vstr "/tmp")]
    [("environment", .vdict [("A", .vstr "1")])]
    [("environment", .vdict [("B", .vstr "2")])]
    [("A", .vstr "1")] [("B", .vstr "2")] [("A", .vstr "3")] []
    "echo hi" (.vstr "/tmp") rfl rfl rfl rfl rfl rfl
  rw [h]
  rfl

/-- C6 counterexample: a copy task with `force: false` whose `remote_src` is
set translates successfully (the force check sits only on the staged-copy
path), so "every copy task with force false fails" is refuted. -/
theorem c6_counterexample_remote_src :
    (AnsibleTask.mk c6RemoteForceTask none none none none).task_copy [] =
      .ok ([[("RUN", .vstr "cp -r s d")]], []) :=
  rfl

/-- C6 (amended): a copy task with `force` set false fails with
`NotImplementedError` when it takes the staged-copy path (source path present,
no `remote_src`; here with no validation command or inline content in play);
and a copy task requesting truthy inline `content` always fails with
`NotImplementedError`. -/
theorem c6_force_false_and_content_fail :
    (∀ (t c args : Dict) (dest src f : Value) (bc ic rc pc : Option Dict),
      dGet t "copy" = some (.vdict c) →
      dGet c "dest" = some dest →
      dGet c "mode" = none →
      dGet c "content" = none →
      dGet c "validate" = none →
      truthy ((dGet c "remote_src").getD .vnone) = false →
      dGet c "src" = some src → truthy src = true →
      dGet c "force" = some f → truthy f = false →
      (AnsibleTask.mk t bc ic rc pc).task_copy args =
        .error (.notImplementedError "Force is not implemented yet")) ∧
    (∀ (t c args : Dict) (dest ct : Value) (bc ic rc pc : Option Dict),
      dGet t "copy" = some (.vdict c) →
      dGet c "dest" = some dest →
      dGet c "mode" = none →
      dGet c "content" = some ct → truthy ct = true →
      (AnsibleTask.mk t bc ic rc pc).task_copy args =
        .error (.notImplementedError "Content in copy task is not supported yet")) := by
  constructor
  · intro t c args dest src f bc ic rc pc h1 h2 h3 h4 h5 h6 h7 h8 h9 h10
    simp [AnsibleTask.task_copy, pyGetItem, bind, Except.bind, pure, Except.pure,
      Functor.map, Except.map, h1, h2, h3, h4, h5, h6, h7, h8, h9, h10]
  · intro t c args dest ct bc ic rc pc h1 h2 h3 h4 h5
    simp [AnsibleTask.task_copy, pyGetItem, bind, Except.bind, pure, Except.pure,
      Functor.map, Except.map, h1, h2, h3, h4, h5]

/-- Witness for `c6_force_false_and_content_fail` at concrete copy tasks. -/
theorem c6_force_false_and_content_fail_witness :
    (AnsibleTask.mk [("copy", .vdict [("src", .vstr "s"), ("dest", .vstr "d"),
        ("force", .vbool false)])] none none none none).task_copy [] =
      .error (.notImplementedError "Force is not implemented yet") ∧
    (AnsibleTask.mk [("copy", .vdict [("dest", .vstr "d"),
        ("content", .vstr "hello")])] none none none none).task_copy [] =
      .error (.notImplementedError "Content in copy task is not supported yet") :=
  ⟨c6_force_false_and_content_fail.1 _ _ [] _ _ _ none none none none
      rfl rfl rfl rfl rfl rfl rfl rfl rfl rfl,
   c6_force_false_and_content_fail.2 _ _ [] _ _ none none none none
      rfl rfl rfl rfl rfl⟩

/-- C2: for a task carrying block and play scope dictionaries whose `context`
entries are the respective `add_context` renderings (as the walker arranges
for play > block > task nesting), every directive `parse` emits gets the same
comment: the play-labeled section first, then the block-labeled section, then
the TASK-CONTEXT section — outermost to innermost, regardless of the loop's
bottom-up construction order. -/
theorem c2_context_order
    (tattrs battrs pattrs : List String) (t bd0 pd0 bd pd : Dict)
    (tp : List DirMap) (tc : String)
    (hbd : dGet bd "context" = some (.vstr (blockAddContext battrs bd0)))
    (hbne : bd ≠ [])
    (hpd : dGet pd "context" = some (.vstr (playAddContext pattrs pd0)))
    (hpne : pd ≠ [])
    (hcore : AnsibleTask.parseCore tattrs
      (AnsibleTask.mk t (some bd) none none (some pd)) = .ok (tp, tc))
    (htc : tc ≠ "") :
    AnsibleTask.parse tattrs (AnsibleTask.mk t (some bd) none none (some pd)) =
      .ok (tp.map (fun d => Directive.mk d (some
        ("\n" ++ (playAddContext pattrs pd0 ++ "\n" ++
          (blockAddContext battrs bd0 ++ "\n" ++
            ("TASK-CONTEXT:\n" ++ tc))))))) := by
  have hb2 : bd.isEmpty = false := by simpa using hbne
  have hp2 : pd.isEmpty = false := by simpa using hpne
  simp [AnsibleTask.parse, composeContext, bind, Except.bind, pure, Except.pure, hcore,
    htc, hbd, hpd, dHas_of_dGet hbd, dHas_of_dGet hpd, hb2, hp2, pyStr]

/-- Witness for `c2_context_order` at a concrete play > block > task nest. -/
theorem c2_context_order_witness :
    AnsibleTask.parse TASK_ATTRS (AnsibleTask.mk
        [("name", .vstr "n"), ("command", .vstr "echo"), ("register", .vstr "r")]
        (some (dSet [("when", .vstr "x")] "context"
          (.vstr (blockAddContext BLOCK_ATTRS [("when", .vstr "x")]))))
        none none
        (some (dSet [("become", .vstr "yes")] "context"
          (.vstr (playAddContext PLAYBOOK_ATTRS [("become", .vstr "yes")]))))) =
      .ok [Directive.mk [("NAME", .vstr "n"), ("RUN", .vstr "echo")]
        (some ("\n## PLAYBOOK-CONTEXT:\nbecome: yes\n## BLOCK-CONTEXT:\nwhen: x\nTASK-CONTEXT:\nregister: r\n"))] := by
  have h := c2_context_order TASK_ATTRS BLOCK_ATTRS PLAYBOOK_ATTRS
    [("name", .vstr "n"), ("command", .vstr "echo"), ("register", .vstr "r")]
    [("when", .vstr "x")] [("become", .vstr "yes")]
    (dSet [("when", .vstr "x")] "context"
      (.vstr (blockAddContext BLOCK_ATTRS [("when", .vstr "x")])))
    (dSet [("become", .vstr "yes")] "context"
      (.vstr (playAddContext PLAYBOOK_ATTRS [("become", .vstr "yes")])))
    [[("NAME", .vstr "n"), ("RUN", .vstr "echo")]] "register: r\n"
    rfl (by decide) rfl (by decide) rfl (by decide)
  rw [h]
  rfl

/-- C4 counterexample: an unsupported qualified module declared before another
key. Namespace reduction pops the long key and appends the short key at the
end of the node, so the ECHO fallback's audit comment serializes the task with
a different key order than the identically-declared short-name task: the two
parses yield different directives. -/
theorem c4_counterexample_echo_comment :
    AnsibleTask.parse TASK_ATTRS (AnsibleTask.mk c4Qual none none none none) =
      .ok [c4QualOut] ∧
    AnsibleTask.parse TASK_ATTRS (AnsibleTask.mk c4Short none none none none) =
      .ok [c4ShortOut] ∧
    c4QualOut ≠ c4ShortOut :=
  ⟨rfl, rfl, fun h => absurd (congrArg Directive.comment h) (by decide)⟩

/-- C4 (amended): for a direct-key task whose namespace-qualified action key
is the last key of the node (every control attribute precedes it),
resolution-plus-normalization of the qualified node and of the identical
short-name node coincide — in particular both resolve to the same short action
name — and the full translation output (directives and comments) is
identical. With the action key in an earlier position the emitted directives
still agree, but the ECHO fallback's serialized-task comment can order keys
differently, as the counterexample shows. -/
theorem c4_qualified_short_equivalence
    (tattrs : List String) (rest : Dict) (pre m : String) (v : Value)
    (bc ic rc pc : Option Dict)
    (hmdot : ¬ '.' ∈ m.data)
    (hrest : ∀ kv ∈ rest, kv.1 ∈ tattrs ∨ ("with_".data.isPrefixOf kv.1.data))
    (hq1 : ¬ (pre ++ "." ++ m) ∈ tattrs)
    (hq2 : ¬ ("with_".data.isPrefixOf (pre ++ "." ++ m).data))
    (hm1 : ¬ m ∈ tattrs) (hm2 : ¬ ("with_".data.isPrefixOf m.data))
    (hrq : dHas rest (pre ++ "." ++ m) = false)
    (hrm : dHas rest m = false)
    (hract : dHas rest "action" = false)
    (hrlact : dHas rest "local_action" = false)
    (hma : m ≠ "action") (hmla : m ≠ "local_action") :
    resolveAndNormalize tattrs (rest ++ [(pre ++ "." ++ m, v)]) =
      resolveAndNormalize tattrs (rest ++ [(m, v)]) ∧
    AnsibleTask.parse tattrs
        (AnsibleTask.mk (rest ++ [(pre ++ "." ++ m, v)]) bc ic rc pc) =
      AnsibleTask.parse tattrs (AnsibleTask.mk (rest ++ [(m, v)]) bc ic rc pc) := by
  have hqdot : '.' ∈ (pre ++ "." ++ m).data := by
    simp [String.data_append]
  have hqa : (pre ++ "." ++ m) ≠ "action" := by
    intro h
    rw [h] at hqdot
    exact absurd hqdot (by decide)
  have hqla : (pre ++ "." ++ m) ≠ "local_action" := by
    intro h
    rw [h] at hqdot
    exact absurd hqdot (by decide)
  have haL : dHas (rest ++ [(pre ++ "." ++ m, v)]) "action" = false := by
    rw [dHas_append, hract, dHas_single]
    simp [hqa]
  have hlaL : dHas (rest ++ [(pre ++ "." ++ m, v)]) "local_action" = false := by
    rw [dHas_append, hrlact, dHas_single]
    simp [hqla]
  have haR : dHas (rest ++ [(m, v)]) "action" = false := by
    rw [dHas_append, hract, dHas_single]
    simp [hma]
  have hlaR : dHas (rest ++ [(m, v)]) "local_action" = false := by
    rw [dHas_append, hrlact, dHas_single]
    simp [hmla]
  have hresL := get_task_action_direct haL hlaL
    (directActionSet_append_single tattrs rest _ v hrest hq1 hq2)
  have hresR := get_task_action_direct haR hlaR
    (directActionSet_append_single tattrs rest _ v hrest hm1 hm2)
  have hqdotB : (pre ++ "." ++ m).data.contains '.' = true := by
    simpa [List.elem_iff] using hqdot
  have hmdotB : m.data.contains '.' = false := by
    simpa [List.elem_iff] using hmdot
  have hlast : lastDotSeg (pre ++ "." ++ m) = m := lastDotSeg_append pre m hmdot
  have hgetL : dGet (rest ++ [(pre ++ "." ++ m, v)]) (pre ++ "." ++ m) = some v := by
    rw [dGet_append_right _ hrq]
    exact dGet_single_self _ _
  have hpopL : dPop (rest ++ [(pre ++ "." ++ m, v)]) (pre ++ "." ++ m) = rest := by
    rw [dPop_append_right _ hrq, dPop_single_self, List.append_nil]
  have hgetR : dGet (rest ++ [(m, v)]) m = some v := by
    rw [dGet_append_right _ hrm]
    exact dGet_single_self _ _
  have hsetR : dSet rest m v = rest ++ [(m, v)] := dSet_not_has v hrm
  have h1 : resolveAndNormalize tattrs (rest ++ [(pre ++ "." ++ m, v)]) =
      resolveAndNormalize tattrs (rest ++ [(m, v)]) := by
    simp only [resolveAndNormalize, hresL, hresR, bind, Except.bind, pure, Except.pure,
      hqdotB, hmdotB, hlast, hgetL, hpopL, hgetR, hsetR, Bool.false_eq_true, if_false,
      if_true]
  refine ⟨h1, ?_⟩
  simp only [AnsibleTask.parse, AnsibleTask.parseCore, bind, Except.bind]
  rw [h1]

/-- Witness for `c4_qualified_short_equivalence` at a qualified copy task. -/
theorem c4_qualified_short_equivalence_witness :
    resolveAndNormalize TASK_ATTRS
        [("name", .vstr "t"), ("ns.coll.copy", .vdict [("src", .vstr "a")])] =
      resolveAndNormalize TASK_ATTRS
        [("name", .vstr "t"), ("copy", .vdict [("src", .vstr "a")])] ∧
    AnsibleTask.parse TASK_ATTRS (AnsibleTask.mk
        [("name", .vstr "t"), ("ns.coll.copy", .vdict [("src", .vstr "a")])]
        none none none none) =
      AnsibleTask.parse TASK_ATTRS (AnsibleTask.mk
        [("name", .vstr "t"), ("copy", .vdict [("src", .vstr "a")])]
        none none none none) := by
  have h := c4_qualified_short_equivalence TASK_ATTRS
    [("name", .vstr "t")] "ns.coll" "copy" (.vdict [("src", .vstr "a")])
    none none none none
    (by decide)
    (by intro kv hkv; simp at hkv; rw [hkv]; left; decide)
    (by decide) (by decide) (by decide) (by decide)
    (by decide) (by decide) (by decide) (by decide) (by decide) (by decide)
  simpa using h

theorem resolveAndNormalize_stable
    (tattrs : List String) (t2 : Dict) (m : String) (v' : Value)
    (hna : dHas t2 "action" = false) (hnla : dHas t2 "local_action" = false)
    (hset : directActionSet tattrs t2 = [m])
    (hdot : m.data.contains '.' = false)
    (hget : dGet t2 m = some v')
    (hnostr : (∀ s, v' ≠ .vstr s) ∨ m ∈ string2dictExempt) :
    resolveAndNormalize tattrs t2 = .ok (m, t2) := by
  have hres := get_task_action_direct hna hnla hset
  have hdot2 : ¬ '.' ∈ m.data := by simpa using hdot
  rcases hnostr with h | h
  · cases v' with
    | vstr s => exact absurd rfl (h s)
    | vnone => simp [resolveAndNormalize, hres, bind, Except.bind, pure, Except.pure,
        hdot2, hget]
    | vbool b => simp [resolveAndNormalize, hres, bind, Except.bind, pure, Except.pure,
        hdot2, hget]
    | vint n => simp [resolveAndNormalize, hres, bind, Except.bind, pure, Except.pure,
        hdot2, hget]
    | vlist l => simp [resolveAndNormalize, hres, bind, Except.bind, pure, Except.pure,
        hdot2, hget]
    | vdict d => simp [resolveAndNormalize, hres, bind, Except.bind, pure, Except.pure,
        hdot2, hget]
  · cases v' <;> simp [resolveAndNormalize, hres, bind, Except.bind, pure, Except.pure,
      hdot2, hget, h]

theorem c8_keys_facts
    (tattrs : List String) (t : Dict) (a0 m : String) (v0 : Value)
    (hna : dHas t "action" = false) (hnla : dHas t "local_action" = false)
    (hfilter : (t.map Prod.fst).filter
      (fun k => ¬ k ∈ tattrs ∧ ¬ ("with_".data.isPrefixOf k.data)) = [a0])
    (hm1 : ¬ m ∈ tattrs) (hm2 : ¬ ("with_".data.isPrefixOf m.data))
    (hma : m ≠ "action") (hmla : m ≠ "local_action")
    (hm_ne_a0 : m ≠ a0) :
    dSet (dPop t a0) m v0 = dPop t a0 ++ [(m, v0)] ∧
    dHas (dPop t a0 ++ [(m, v0)]) "action" = false ∧
    dHas (dPop t a0 ++ [(m, v0)]) "local_action" = false ∧
    directActionSet tattrs (dPop t a0 ++ [(m, v0)]) = [m] := by
  have hpm : decide (¬ m ∈ tattrs ∧ ¬ ("with_".data.isPrefixOf m.data)) = true := by
    rw [decide_eq_true_eq]
    exact ⟨hm1, hm2⟩
  have hmnotin : dHas t m = false := by
    rw [Bool.eq_false_iff]
    intro hmem
    rcases dHas_iff_exists.mp hmem with ⟨kv, hkv, hk1⟩
    have hmm : m ∈ t.map Prod.fst := List.mem_map.mpr ⟨kv, hkv, hk1⟩
    have hmf : m ∈ (t.map Prod.fst).filter
        (fun k => ¬ k ∈ tattrs ∧ ¬ ("with_".data.isPrefixOf k.data)) :=
      List.mem_filter.mpr ⟨hmm, hpm⟩
    rw [hfilter] at hmf
    exact hm_ne_a0 (by simpa using hmf)
  have hpopm : dHas (dPop t a0) m = false := by
    rw [Bool.eq_false_iff]
    intro hp
    exact absurd (dHas_dPop_imp hp) (by simp [hmnotin])
  refine ⟨dSet_not_has v0 hpopm, ?_, ?_, ?_⟩
  · have h1 : dHas (dPop t a0) "action" = false := by
      rw [Bool.eq_false_iff]
      intro hp
      exact absurd (dHas_dPop_imp hp) (by simp [hna])
    rw [dHas_append, h1, dHas_single]
    simp [hma]
  · have h1 : dHas (dPop t a0) "local_action" = false := by
      rw [Bool.eq_false_iff]
      intro hp
      exact absurd (dHas_dPop_imp hp) (by simp [hnla])
    rw [dHas_append, h1, dHas_single]
    simp [hmla]
  · unfold directActionSet
    have hkeys1 : ((dPop t a0 ++ [(m, v0)]).map Prod.fst) =
        ((t.map Prod.fst).eraseP (fun x => x == a0)) ++ [m] := by
      rw [List.map_append, keys_dPop]
      rfl
    rw [hkeys1, List.filter_append, filter_eraseP_eq_nil hfilter]
    have hm2c : ¬ ("with_".data <+: m.data) := by simpa using hm2
    simp [hm1, hm2c]

/-- C8 counterexample: the node whose single key is `ns.with_x` resolves and
normalizes to the node keyed `with_x`; resolving that already-normalized node
again fails (the short name now carries the loop-key `with_` marker and is
excluded from the candidate set), so resolution is not idempotent as claimed. -/
theorem c8_counterexample_loop_prefix :
    resolveAndNormalize TASK_ATTRS [("ns.with_x", .vdict [])] =
      .ok ("with_x", [("with_x", .vdict [])]) ∧
    resolveAndNormalize TASK_ATTRS [("with_x", .vdict [])] =
      .error (.exceptionErr
        "Can\x27t get action from task: \x7b\x27with_x\x27: \x7b\x7d\x7d") :=
  ⟨rfl, rfl⟩

/-- C8 (amended): for a direct-key task node (no `action`/`local_action`
syntax, unique keys) that resolution-plus-normalization maps to `(m, t2)`,
provided the resulting short action name is not a control attribute, does not
carry the `with_` loop-key prefix and is not an action-syntax marker, running
resolution-plus-normalization again on the normalized node yields the same
action name and performs no further mutation. (Without the provisos the claim
fails: see the counterexample, where the reduced short name gains the loop
prefix and the second resolution raises.) -/
theorem c8_resolution_idempotent
    (tattrs : List String) (t t2 : Dict) (m : String)
    (hna : dHas t "action" = false) (hnla : dHas t "local_action" = false)
    (hnd : (t.map Prod.fst).Nodup)
    (hrun : resolveAndNormalize tattrs t = .ok (m, t2))
    (hm1 : ¬ m ∈ tattrs) (hm2 : ¬ ("with_".data.isPrefixOf m.data))
    (hma : m ≠ "action") (hmla : m ≠ "local_action") :
    resolveAndNormalize tattrs t2 = .ok (m, t2) := by
  cases hset : directActionSet tattrs t with
  | nil =>
      simp [resolveAndNormalize, get_task_action, hna, hnla, hset, bind, Except.bind] at hrun
  | cons a0 tl =>
    cases tl with
    | cons b l2 =>
        simp [resolveAndNormalize, get_task_action, hna, hnla, hset, bind, Except.bind] at hrun
    | nil =>
      have hres : get_task_action tattrs t = .ok (.vstr a0) :=
        get_task_action_direct hna hnla hset
      have hfilter : (t.map Prod.fst).filter
          (fun k => ¬ k ∈ tattrs ∧ ¬ ("with_".data.isPrefixOf k.data)) = [a0] := by
        have hn2 := List.Nodup.filter
          (fun k => decide (¬ k ∈ tattrs ∧ ¬ ("with_".data.isPrefixOf k.data))) hnd
        have hd2 := List.Nodup.dedup hn2
        unfold directActionSet at hset
        rw [hd2] at hset
        exact hset
      simp only [resolveAndNormalize, hres, bind, Except.bind, pure, Except.pure] at hrun
      by_cases hc : a0.data.contains '.' = true
      · -- namespace-reduction path
        rw [if_pos hc] at hrun
        have hdotm : (lastDotSeg a0).data.contains '.' = false := by
          rw [Bool.eq_false_iff]
          intro hcon
          exact lastDotSeg_no_dot a0 (by simpa [List.elem_iff] using hcon)
        have hmna0 : lastDotSeg a0 ≠ a0 := by
          intro he
          have hnd0 := lastDotSeg_no_dot a0
          rw [he] at hnd0
          exact hnd0 (by simpa [List.elem_iff] using hc)
        cases hv0 : dGet t a0 with
        | none =>
            rw [hv0] at hrun
            simp at hrun
        | some v0 =>
          rw [hv0] at hrun
          simp only [pure, Except.pure] at hrun
          rw [dGet_dSet] at hrun
          cases v0 with
          | vstr s =>
            simp only [Except.ok.injEq, Prod.mk.injEq] at hrun
            obtain ⟨h1e, h2e⟩ := hrun
            subst h1e
            by_cases hex : lastDotSeg a0 ∈ string2dictExempt
            · rw [if_pos hex] at h2e
              subst h2e
              obtain ⟨hSet, hna1, hnla1, hset1⟩ := c8_keys_facts tattrs t a0
                (lastDotSeg a0) (.vstr s) hna hnla hfilter hm1 hm2 hma hmla hmna0
              refine resolveAndNormalize_stable tattrs _ _ (.vstr s) ?_ ?_ ?_ hdotm ?_
                (Or.inr hex)
              · rw [hSet]; exact hna1
              · rw [hSet]; exact hnla1
              · rw [hSet]; exact hset1
              · exact dGet_dSet _ _ _
            · rw [if_neg hex] at h2e
              subst h2e
              obtain ⟨hSet, hna1, hnla1, hset1⟩ := c8_keys_facts tattrs t a0
                (lastDotSeg a0) (.vstr s) hna hnla hfilter hm1 hm2 hma hmla hmna0
              have hkeq : (dSet (dSet (dPop t a0) (lastDotSeg a0) (.vstr s))
                  (lastDotSeg a0) (string2dict s)).map Prod.fst =
                  (dSet (dPop t a0) (lastDotSeg a0) (.vstr s)).map Prod.fst :=
                keys_dSet_of_has _ (dHas_of_dGet (dGet_dSet _ _ _))
              refine resolveAndNormalize_stable tattrs _ _ (string2dict s) ?_ ?_ ?_ hdotm ?_
                (Or.inl ?_)
              · rw [dHas_congr_keys hkeq, hSet]; exact hna1
              · rw [dHas_congr_keys hkeq, hSet]; exact hnla1
              · rw [directActionSet_congr_keys hkeq, hSet]; exact hset1
              · exact dGet_dSet _ _ _
              · intro s2 hcontra
                simp [string2dict] at hcontra
          | vnone =>
            simp only [Except.ok.injEq, Prod.mk.injEq] at hrun
            obtain ⟨h1e, h2e⟩ := hrun
            subst h1e
            subst h2e
            obtain ⟨hSet, hna1, hnla1, hset1⟩ := c8_keys_facts tattrs t a0
              (lastDotSeg a0) .vnone hna hnla hfilter hm1 hm2 hma hmla hmna0
            refine resolveAndNormalize_stable tattrs _ _ .vnone ?_ ?_ ?_ hdotm ?_
              (Or.inl (fun s2 h => Value.noConfusion h))
            · rw [hSet]; exact hna1
            · rw [hSet]; exact hnla1
            · rw [hSet]; exact hset1
            · exact dGet_dSet _ _ _
          | vbool b0 =>
            simp only [Except.ok.injEq, Prod.mk.injEq] at hrun
            obtain ⟨h1e, h2e⟩ := hrun
            subst h1e
            subst h2e
            obtain ⟨hSet, hna1, hnla1, hset1⟩ := c8_keys_facts tattrs t a0
              (lastDotSeg a0) (.vbool b0) hna hnla hfilter hm1 hm2 hma hmla hmna0
            refine resolveAndNormalize_stable tattrs _ _ (.vbool b0) ?_ ?_ ?_ hdotm ?_
              (Or.inl (fun s2 h => Value.noConfusion h))
            · rw [hSet]; exact hna1
            · rw [hSet]; exact hnla1
            · rw [hSet]; exact hset1
            · exact dGet_dSet _ _ _
          | vint n0 =>
            simp only [Except.ok.injEq, Prod.mk.injEq] at hrun
            obtain ⟨h1e, h2e⟩ := hrun
            subst h1e
            subst h2e
            obtain ⟨hSet, hna1, hnla1, hset1⟩ := c8_keys_facts tattrs t a0
              (lastDotSeg a0) (.vint n0) hna hnla hfilter hm1 hm2 hma hmla hmna0
            refine resolveAndNormalize_stable tattrs _ _ (.vint n0) ?_ ?_ ?_ hdotm ?_
              (Or.inl (fun s2 h => Value.noConfusion h))
            · rw [hSet]; exact hna1
            · rw [hSet]; exact hnla1
            · rw [hSet]; exact hset1
            · exact dGet_dSet _ _ _
          | vlist l0 =>
            simp only [Except.ok.injEq, Prod.mk.injEq] at hrun
            obtain ⟨h1e, h2e⟩ := hrun
            subst h1e
            subst h2e
            obtain ⟨hSet, hna1, hnla1, hset1⟩ := c8_keys_facts tattrs t a0
              (lastDotSeg a0) (.vlist l0) hna hnla hfilter hm1 hm2 hma hmla hmna0
            refine resolveAndNormalize_stable tattrs _ _ (.vlist l0) ?_ ?_ ?_ hdotm ?_
              (Or.inl (fun s2 h => Value.noConfusion h))
            · rw [hSet]; exact hna1
            · rw [hSet]; exact hnla1
            · rw [hSet]; exact hset1
            · exact dGet_dSet _ _ _
          | vdict d0 =>
            simp only [Except.ok.injEq, Prod.mk.injEq] at hrun
            obtain ⟨h1e, h2e⟩ := hrun
            subst h1e
            subst h2e
            obtain ⟨hSet, hna1, hnla1, hset1⟩ := c8_keys_facts tattrs t a0
              (lastDotSeg a0) (.vdict d0) hna hnla hfilter hm1 hm2 hma hmla hmna0
            refine resolveAndNormalize_stable tattrs _ _ (.vdict d0) ?_ ?_ ?_ hdotm ?_
              (Or.inl (fun s2 h => Value.noConfusion h))
            · rw [hSet]; exact hna1
            · rw [hSet]; exact hnla1
            · rw [hSet]; exact hset1
            · exact dGet_dSet _ _ _
      · -- no namespace reduction
        have hc2 : a0.data.contains '.' = false := by simpa using hc
        rw [if_neg (by rw [hc2]; simp)] at hrun
        cases hv0 : dGet t a0 with
        | none =>
            rw [hv0] at hrun
            simp at hrun
        | some v0 =>
          rw [hv0] at hrun
          cases v0 with
          | vstr s =>
            simp only [Except.ok.injEq, Prod.mk.injEq] at hrun
            obtain ⟨h1e, h2e⟩ := hrun
            subst h1e
            by_cases hex : a0 ∈ string2dictExempt
            · rw [if_pos hex] at h2e
              subst h2e
              exact resolveAndNormalize_stable tattrs t _ (.vstr s) hna hnla hset hc2 hv0
                (Or.inr hex)
            · rw [if_neg hex] at h2e
              subst h2e
              have hkeq : (dSet t a0 (string2dict s)).map Prod.fst = t.map Prod.fst :=
                keys_dSet_of_has _ (dHas_of_dGet hv0)
              refine resolveAndNormalize_stable tattrs _ _ (string2dict s) ?_ ?_ ?_ hc2 ?_
                (Or.inl ?_)
              · rw [dHas_congr_keys hkeq]; exact hna
              · rw [dHas_congr_keys hkeq]; exact hnla
              · rw [directActionSet_congr_keys hkeq]; exact hset
              · exact dGet_dSet _ _ _
              · intro s2 hcontra
                simp [string2dict] at hcontra
          | vnone =>
            simp only [Except.ok.injEq, Prod.mk.injEq] at hrun
            obtain ⟨h1e, h2e⟩ := hrun
            subst h1e
            subst h2e
            exact resolveAndNormalize_stable tattrs t _ .vnone hna hnla hset hc2 hv0
              (Or.inl (fun s2 h => Value.noConfusion h))
          | vbool b0 =>
            simp only [Except.ok.injEq, Prod.mk.injEq] at hrun
            obtain ⟨h1e, h2e⟩ := hrun
            subst h1e
            subst h2e
            exact resolveAndNormalize_stable tattrs t _ (.vbool b0) hna hnla hset hc2 hv0
              (Or.inl (fun s2 h => Value.noConfusion h))
          | vint n0 =>
            simp only [Except.ok.injEq, Prod.mk.injEq] at hrun
            obtain ⟨h1e, h2e⟩ := hrun
            subst h1e
            subst h2e
            exact resolveAndNormalize_stable tattrs t _ (.vint n0) hna hnla hset hc2 hv0
              (Or.inl (fun s2 h => Value.noConfusion h))
          | vlist l0 =>
            simp only [Except.ok.injEq, Prod.mk.injEq] at hrun
            obtain ⟨h1e, h2e⟩ := hrun
            subst h1e
            subst h2e
            exact resolveAndNormalize_stable tattrs t _ (.vlist l0) hna hnla hset hc2 hv0
              (Or.inl (fun s2 h => Value.noConfusion h))
          | vdict d0 =>
            simp only [Except.ok.injEq, Prod.mk.injEq] at hrun
            obtain ⟨h1e, h2e⟩ := hrun
            subst h1e
            subst h2e
            exact resolveAndNormalize_stable tattrs t _ (.vdict d0) hna hnla hset hc2 hv0
              (Or.inl (fun s2 h => Value.noConfusion h))

/-- Witness for `c8_resolution_idempotent` at a qualified copy task. -/
theorem c8_resolution_idempotent_witness :
    resolveAndNormalize TASK_ATTRS [("name", .vstr "t"), ("copy", .vdict [("src", .vstr "a")])] =
      .ok ("copy", [("name", .vstr "t"), ("copy", .vdict [("src", .vstr "a")])]) := by
  have h := c8_resolution_idempotent TASK_ATTRS
    [("name", .vstr "t"), ("ns.copy", .vdict [("src", .vstr "a")])]
    [("name", .vstr "t"), ("copy", .vdict [("src", .vstr "a")])] "copy"
    rfl rfl (by decide) rfl (by decide) (by decide) (by decide) (by decide)
  exact h

theorem yaml_dump_ne_empty (v : Value) : yaml_dump v ≠ "" := by
  intro h
  have hd := congrArg String.data h
  cases v with
  | vdict d =>
      cases d with
      | nil => simp [yaml_dump] at hd
      | cons kv rest =>
          simp [yaml_dump, yamlDumpEntries, String.data_append, List.append_eq_nil] at hd
  | vnone => simp [yaml_dump, yamlScalar, pyStr, pyRepr, String.data_append,
      List.append_eq_nil] at hd
  | vbool b => cases b <;> simp [yaml_dump, yamlScalar, pyStr, pyRepr, String.data_append,
      List.append_eq_nil] at hd
  | vint n => simp [yaml_dump, yamlScalar, pyStr, String.data_append,
      List.append_eq_nil] at hd
  | vstr str => simp [yaml_dump, yamlScalar, String.data_append, List.append_eq_nil] at hd
  | vlist l => simp [yaml_dump, yamlScalar, pyStr, pyRepr, String.data_append,
      List.append_eq_nil] at hd

/-- C7: for any task whose resolved action name is not in the supported-module
table (and is no structural marker), `parse` raises no error and produces
exactly one directive, carrying only a NAME and an ECHO entry, whose attached
comment embeds the serialized full task under the TASK-CONTEXT label. Stated
for a task with no surrounding scopes, an action value that needs no
normalization, and a dot-free resolved name. -/
theorem c7_unsupported_module_echo
    (tattrs : List String) (t : Dict) (m : String) (v : Value)
    (hres : get_task_action tattrs t = .ok (.vstr m))
    (hdot : m.data.contains '.' = false)
    (hval : dGet t m = some v)
    (hstr : ∀ s, v ≠ .vstr s)
    (hstruct : ¬ m ∈ ["block", "include", "include_tasks"])
    (hsup : ¬ m ∈ supportedModules) :
    AnsibleTask.parse tattrs (AnsibleTask.mk t none none none none) =
      .ok [Directive.mk
        [("NAME", (dGet t "name").getD (.vstr "Unnamed task")),
         ("ECHO", .vstr ("Conversion of task module \x27" ++ m ++
           "\x27 is not implemented yet!"))]
        (some ("\n" ++ ("TASK-CONTEXT:\n" ++ yaml_dump (.vdict t))))] := by
  have hdot2 : ¬ '.' ∈ m.data := by simpa using hdot
  have hnorm : resolveAndNormalize tattrs t = .ok (m, t) := by
    cases v with
    | vstr s => exact absurd rfl (hstr s)
    | vnone => simp [resolveAndNormalize, bind, Except.bind, pure, Except.pure, hres,
        hdot2, hval]
    | vbool b => simp [resolveAndNormalize, bind, Except.bind, pure, Except.pure, hres,
        hdot2, hval]
    | vint n => simp [resolveAndNormalize, bind, Except.bind, pure, Except.pure, hres,
        hdot2, hval]
    | vlist l => simp [resolveAndNormalize, bind, Except.bind, pure, Except.pure, hres,
        hdot2, hval]
    | vdict d => simp [resolveAndNormalize, bind, Except.bind, pure, Except.pure, hres,
        hdot2, hval]
  simp [AnsibleTask.parse, AnsibleTask.parseCore, composeContext, bind, Except.bind,
    pure, Except.pure, hnorm, hstruct, hsup, yaml_dump_ne_empty]

/-- Witness for `c7_unsupported_module_echo` at an unsupported module name. -/
theorem c7_unsupported_module_echo_witness :
    AnsibleTask.parse TASK_ATTRS (AnsibleTask.mk
        [("name", .vstr "t"), ("foobar", .vdict [("a", .vstr "1")])]
        none none none none) =
      .ok [Directive.mk
        [("NAME", .vstr "t"),
         ("ECHO", .vstr "Conversion of task module \x27foobar\x27 is not implemented yet!")]
        (some "\nTASK-CONTEXT:\nname: t\nfoobar: \x7b\x27a\x27: \x271\x27\x7d\n")] := by
  have h := c7_unsupported_module_echo TASK_ATTRS
    [("name", .vstr "t"), ("foobar", .vdict [("a", .vstr "1")])]
    "foobar" (.vdict [("a", .vstr "1")]) rfl rfl rfl
    (fun s hh => Value.noConfusion hh) (by decide) (by decide)
  rw [h]
  rfl

/-- C9: for a task declared with the `action`/`local_action` syntax — the
value a mapping carrying a `module` key, or a plain command string (without
the letter sequence `module`, which would trip the substring test first) —
`parse` raises an uncaught `KeyError` for the resolved name: after resolving,
it indexes (or pops) the node at that name, which is not a key of the node. -/
theorem c9_action_syntax_keyerror
    (tattrs : List String) (t : Dict) (av : Value) (m : String)
    (bc ic rc pc : Option Dict)
    (hA : dGet t "action" = some av ∨ (dHas t "action" = false ∧ dGet t "local_action" = some av))
    (hShape : (∃ d, av = .vdict d ∧ dGet d "module" = some (.vstr m)) ∨
      (∃ s, av = .vstr s ∧ substr "module" s = false ∧ firstWsToken s = some m))
    (hnk : dHas t m = false) :
    AnsibleTask.parse tattrs (AnsibleTask.mk t bc ic rc pc) =
      .error (.keyError m) := by
  have hget : dGet t m = none := dGet_eq_none_of_dHas hnk
  have hres : get_task_action tattrs t = .ok (.vstr m) := by
    rcases hShape with ⟨d, rfl, hmod⟩ | ⟨str, rfl, hsub, htok⟩
    · rcases hA with h | ⟨hna, h⟩
      · simp [get_task_action, pyIn, pyGetItem, bind, Except.bind, pure, Except.pure,
          dHas_of_dGet h, h, dHas_of_dGet hmod, hmod]
      · simp [get_task_action, pyIn, pyGetItem, bind, Except.bind, pure, Except.pure,
          hna, dHas_of_dGet h, h, dHas_of_dGet hmod, hmod]
    · rcases hA with h | ⟨hna, h⟩
      · simp [get_task_action, pyIn, pyGetItem, bind, Except.bind, pure, Except.pure,
          dHas_of_dGet h, h, hsub, htok]
      · simp [get_task_action, pyIn, pyGetItem, bind, Except.bind, pure, Except.pure,
          hna, dHas_of_dGet h, h, hsub, htok]
  have hnorm : resolveAndNormalize tattrs t = .error (.keyError m) := by
    cases hc : m.data.contains '.' <;>
      simp [resolveAndNormalize, bind, Except.bind, pure, Except.pure, hres, hc, hget]
  simp [AnsibleTask.parse, AnsibleTask.parseCore, bind, Except.bind, pure, Except.pure,
    hnorm]

/-- Witness for `c9_action_syntax_keyerror` at both declaration shapes. -/
theorem c9_action_syntax_keyerror_witness :
    AnsibleTask.parse TASK_ATTRS (AnsibleTask.mk
        [("action", .vdict [("module", .vstr "copy"), ("src", .vstr "a")])]
        none none none none) =
      .error (.keyError "copy") :=
  c9_action_syntax_keyerror TASK_ATTRS
    [("action", .vdict [("module", .vstr "copy"), ("src", .vstr "a")])]
    (.vdict [("module", .vstr "copy"), ("src", .vstr "a")]) "copy"
    none none none none
    (Or.inl rfl)
    (Or.inl ⟨[("module", .vstr "copy"), ("src", .vstr "a")], rfl, rfl⟩)
    (by decide)

/-- C10: a package task (any of the yum/dnf/package aliases) whose state is
outside the recognized set and whose attributes are only name/state/exclude
translates without error to a DNF directive whose payload carries the optional
exclude flag and the packages but no `--latest`/`--absent` state flag — the
unrecognized state is treated like the default present state. -/
theorem c10_unrecognized_state
    (t td args : Dict) (pkgs : Value) (pl : List Value) (pls : List String)
    (st : String) (bc ic rc pc : Option Dict)
    (halias : dnfActionValue t = .ok (.vdict td))
    (hname : dGet td "name" = some pkgs)
    (hst : dGet td "state" = some (.vstr st))
    (hstNot : ¬ st ∈ ["installed", "present", "absent", "removed", "latest"])
    (hkeys : ∀ kv ∈ td, kv.1 = "name" ∨ kv.1 = "state" ∨ kv.1 = "exclude")
    (hpl : pkgsAsList pkgs = .ok pl)
    (hpls : pl.mapM asStrJ = .ok pls) :
    (AnsibleTask.mk t bc ic rc pc).task_dnf args =
      .ok ([[("DNF", Value.vstr (String.intercalate " "
        ((if truthy ((dGet td "exclude").getD (.vstr "")) then
            [pyStr (Value.vstr ("--exclude \x22" ++
              pyStr ((dGet td "exclude").getD (.vstr "")) ++ "\x22"))]
          else []) ++ pls)))]], args) := by
  simp only [not_or, List.mem_cons, List.mem_singleton, List.not_mem_nil] at hstNot
  have hmap : dnfStatesMap st = st := by
    simp [dnfStatesMap, hstNot.1, hstNot.2.1, hstNot.2.2.1, hstNot.2.2.2.1, hstNot.2.2.2.2.1]
  have hfind : List.find?
      (fun kv => !decide (kv.1 = "name") && (!decide (kv.1 = "state") &&
        !decide (kv.1 = "exclude"))) td = none := by
    rw [List.find?_eq_none]
    intro kv hkv
    rcases hkeys kv hkv with h | h | h <;> simp [h]
  have hpls2 : List.mapM.loop asStrJ pl [] = Except.ok pls := hpls
  have hflag : ∀ x : String, ("--exclude \x22" ++ (x ++ "\x22")).isEmpty = false :=
    fun x => isEmpty_append_left _ _ (by decide)
  by_cases he : truthy ((dGet td "exclude").getD (Value.vstr "")) = true
  · simp [AnsibleTask.task_dnf, pyGetItem, bind, Except.bind, pure, Except.pure, pyStr,
      halias, hname, hst, hfind, hpl, hpls, hpls2, hmap, hstNot.2.2.1, hstNot.2.2.2.2.1,
      he, String.append_assoc, hflag]
  · simp [AnsibleTask.task_dnf, pyGetItem, bind, Except.bind, pure, Except.pure, pyStr,
      halias, hname, hst, hfind, hpl, hpls, hpls2, hmap, hstNot.2.2.1, hstNot.2.2.2.2.1,
      he]

/-- Witness for `c10_unrecognized_state` at a dnf task with state `weird`. -/
theorem c10_unrecognized_state_witness :
    (AnsibleTask.mk c10Task none none none none).task_dnf [] =
      .ok ([[("DNF", Value.vstr "--exclude \x22ker*\x22 vim")]], []) := by
  have h := c10_unrecognized_state c10Task c10Td [] (.vstr "vim") [.vstr "vim"] ["vim"]
    "weird" none none none none rfl rfl rfl (by decide)
    (by intro kv hkv; simp [c10Td] at hkv; rcases hkv with h | h | h <;> simp [h]) rfl rfl
  simpa [c10Td, dGet, pyStr] using h

end A2dd
